import Mathlib

/-! Research UI controller (`static/script.js`)

A shallow embedding of the browser script: the slug derivation of `runPreset`,
the tab click handler, the submission routine `runResearch` with its promise
chain, and the renderer `displayResults`, over an explicit model of the part of
the page the script reads and writes.

Modelling conventions.
* A JavaScript string is a `String`; regular-expression replacement works on its
  list of characters.  `String.prototype.toLowerCase` is a builtin of the host:
  the functions that call it take it as the parameter `lower`, and
  `asciiLower` is its behaviour on ASCII text.
* A JSON value held by a response field is a `JSVal`; a missing key reads as
  `JSVal.undefined`.  A number is a `JSNum`: what the script observes of it, its
  conversion to string and its truthiness, so that fractional numbers and
  numbers printed with an exponent are values like any other.
* The content of a results container is the list of its elements in document
  order, each with its class list, its content and its click listeners.  An
  assignment to `innerHTML` parses the markup: `parseHTML` (the parser of the
  host) gives the elements of the markup, and they follow the element written
  to in document order.  Each element records whether it came from the template
  or from the report body (`Origin`); the script cannot observe this, the
  statements use it to name the cells of the template.  The cells of the
  template have no element children.
* A block of statements yields a `Completion`: it finishes normally, or it
  throws and leaves the state reached so far.  The message texts of errors
  thrown by the engine follow V8; no statement below depends on them.
-/

namespace ResearchUI

/-! ## Values -/

/-- A number as the script observes it: `text` is its conversion to string
("7", "7.5", "1e+21"), `truthy` is false for zero (and `NaN`) only. -/
structure JSNum where
  text : String
  truthy : Bool
  deriving DecidableEq, Repr

/-- The number 0, as in the literal of `|| 0`. -/
def JSNum.zero : JSNum := { text := "0", truthy := false }

/-- A value read from a parsed JSON response (or `undefined` for a missing key).
An array or object is given by its conversion to string. -/
inductive JSVal where
  | undefined
  | null
  | bool (b : Bool)
  | num (x : JSNum)
  | str (s : String)
  | obj (text : String)
  deriving DecidableEq, Repr

/-- Truthiness, as tested by `if (v)` and `v || d`. -/
def JSVal.truthy : JSVal → Bool
  | .undefined => false
  | .null => false
  | .bool b => b
  | .num x => x.truthy
  | .str s => s != ""
  | .obj _ => true

/-- The expression `a || d`. -/
def JSVal.or (a d : JSVal) : JSVal := if a.truthy then a else d

/-- Conversion to string, as performed by `'text' + v`. -/
def JSVal.toStr : JSVal → String
  | .undefined => "undefined"
  | .null => "null"
  | .bool true => "true"
  | .bool false => "false"
  | .num x => x.text
  | .str s => s
  | .obj t => t

/-- Conversion performed by the setter of `textContent` (a nullable string
attribute): `null` and `undefined` give the empty text. -/
def JSVal.toText : JSVal → String
  | .undefined => ""
  | .null => ""
  | v => v.toStr

/-- Outcome of running statements on a state of type `σ`. -/
inductive Completion (σ : Type) where
  | normal (s : σ)
  | throw (message : String) (s : σ)
  deriving DecidableEq, Repr

/-- The state a completion ends in. -/
def Completion.state {σ : Type} : Completion σ → σ
  | .normal s => s
  | .throw _ s => s

/-- Whether the statements finished without throwing. -/
def Completion.isNormal {σ : Type} : Completion σ → Bool
  | .normal _ => true
  | .throw _ _ => false

/-- Sequencing: the next statement runs only after a normal completion. -/
def Completion.bind {σ : Type} (r : Completion σ) (f : σ → Completion σ) : Completion σ :=
  match r with
  | .normal s => f s
  | .throw m s => .throw m s

/-- Applies `f` to the first element satisfying `p`; `none` when there is none. -/
def updateFirst {α : Type} (p : α → Bool) (f : α → α) : List α → Option (List α)
  | [] => none
  | a :: as => if p a then some (f a :: as) else (updateFirst p f as).map (a :: ·)

/-- Applies `f` to the first element satisfying `p` and puts the elements `ins`
right after it; `none` when there is none. -/
def updateFirstInsert {α : Type} (p : α → Bool) (f : α → α) (ins : List α) :
    List α → Option (List α)
  | [] => none
  | a :: as =>
    if p a then some (f a :: (ins ++ as)) else (updateFirstInsert p f ins as).map (a :: ·)

/-- The position of the first element satisfying `p`. -/
def firstIdx {α : Type} (p : α → Bool) : List α → Option Nat
  | [] => none
  | a :: as => if p a then some 0 else (firstIdx p as).map (· + 1)

/-- Applies `f` to the element at a position, if there is one. -/
def modifyAt {α : Type} (f : α → α) : Nat → List α → List α
  | _, [] => []
  | 0, a :: as => f a :: as
  | n + 1, a :: as => a :: modifyAt f n as

/-! ## `runPreset`: the container identifier -/

/-- The call `s.replace(/C/g, r)` for a pattern `C` that matches one character:
scanning left to right, every matched character is replaced by `r`. -/
def replaceAll (pattern : Char → Bool) (r : String) (s : String) : String :=
  ⟨s.data.flatMap fun c => if pattern c then r.data else [c]⟩

/-- The pattern `/ /`. -/
def reSpace (c : Char) : Bool := c == ' '

/-- The character class `[a-z-]`. -/
def inLowerHyphen (c : Char) : Bool := (decide ('a' ≤ c) && decide (c ≤ 'z')) || c == '-'

/-- The pattern `/[^a-z-]/`. -/
def reNotLowerHyphen (c : Char) : Bool := !inLowerHyphen c

/-- The builtin `toLowerCase` on ASCII text. -/
def asciiLower (s : String) : String := ⟨s.data.map Char.toLower⟩

/-- Line 35: `name.toLowerCase().replace(/ /g, '-').replace(/[^a-z-]/g, '')`. -/
def tabId (lower : String → String) (name : String) : String :=
  replaceAll reNotLowerHyphen "" (replaceAll reSpace "-" (lower name))

/-- The payload of a research request. -/
structure ResearchData where
  target : JSVal
  context : JSVal
  focus : JSVal
  time_period : JSVal
  industry : JSVal
  location : JSVal
  deriving DecidableEq, Repr

/-- Lines 34-44: the two arguments `runPreset` hands to `runResearch`. -/
def runPreset (lower : String → String) (name : String)
    (context focus time_period industry location : JSVal) : ResearchData × String :=
  ({ target := .str name, context := context, focus := focus, time_period := time_period,
     industry := industry, location := location },
   "results-" ++ tabId lower name)

/-- The slug as the specification words it: lowercase the name, replace every
space by a hyphen, then drop every character outside `[a-z-]`. -/
def specSlug (lower : String → String) (name : String) : String :=
  ⟨((lower name).data.map fun c => if c = ' ' then '-' else c).filter inLowerHyphen⟩

/-! ## The tab click handler -/

/-- What the tab handler sees of an element of the document. -/
structure TabElem where
  id : Option String
  classes : List String
  dataTarget : Option String
  deriving DecidableEq, Repr

/-- The call `classList.remove('active')`. -/
def removeActive (e : TabElem) : TabElem :=
  { e with classes := e.classes.filter (· != "active") }

/-- The call `classList.add('active')`. -/
def addActive (e : TabElem) : TabElem :=
  if e.classes.contains "active" then e else { e with classes := e.classes ++ ["active"] }

/-- Membership in the result of `querySelectorAll('.' + cls)`. -/
def TabElem.hasClass (cls : String) (e : TabElem) : Bool := e.classes.contains cls

/-- One step of `querySelectorAll('.' + cls).forEach(x => x.classList.remove('active'))`:
an element of the class loses `active`, any other element is left alone. -/
def deactivate (cls : String) (e : TabElem) : TabElem :=
  if e.hasClass cls then removeActive e else e

/-- The call `document.getElementById(t)`: the position of the first element
whose id is `t`. -/
def tabGetElementById (t : String) (doc : List TabElem) : Option Nat :=
  firstIdx (fun e => t != "" && e.id == some t) doc

/-- Lines 22-30: the click handler bound to the element at position `btn`. -/
def tabClick (btn : Nat) (doc : List TabElem) : Completion (List TabElem) :=
  match doc[btn]? with
  | none => .normal doc
  | some b =>
    -- `getAttribute` gives `null` without the attribute; `getElementById(null)` looks up "null"
    let target := b.dataTarget.getD "null"
    let doc1 := doc.map (deactivate "tab-btn")
    let doc2 := doc1.map (deactivate "tab-content")
    let doc3 := modifyAt addActive btn doc2
    match tabGetElementById target doc3 with
    | none => .throw "Cannot read properties of null (reading 'classList')" doc3
    | some j => .normal (modifyAt addActive j doc3)

/-- An element that `querySelectorAll('.' + cls)` returns and that has the class `active`. -/
def activeOf (cls : String) (e : TabElem) : Bool := e.hasClass cls && e.hasClass "active"

/-! ## The report and the results containers -/

/-- The mapping `risk_breakdown`; a missing key is `undefined`. -/
structure RiskBreakdown where
  financial : JSVal
  legal : JSVal
  reputational : JSVal
  association : JSVal
  integrity : JSVal
  operational : JSVal
  deriving DecidableEq, Repr

/-- The mapping `stats`; a missing key is `undefined`. -/
structure Stats where
  sources : JSVal
  people : JSVal
  organizations : JSVal
  events : JSVal
  deriving DecidableEq, Repr

/-- The response object of `/research` and `/get_preset/`.  `risk_breakdown` and
`stats` are `none` when the response has no such mapping (reading a key of it
throws); `full_report_markdown` is `none` when missing, and a string otherwise. -/
structure Report where
  target : JSVal
  full_report_markdown : Option String
  risk_breakdown : Option RiskBreakdown
  stats : Option Stats
  report_id : JSVal
  error : JSVal
  deriving DecidableEq, Repr

/-- A click listener added by the script: the closure of lines 115-121 over `reportId`. -/
inductive Listener where
  | downloadPdf (reportId : JSVal)
  deriving DecidableEq, Repr

/-- What an element holds: text, or markup assigned through `innerHTML`. -/
inductive Content where
  | text (s : String)
  | html (s : String)
  deriving DecidableEq, Repr

/-- An element of parsed markup. -/
structure Markup where
  classes : List String
  text : String
  deriving DecidableEq, Repr

/-- Where an element of a results container came from: the template markup, or
the markup of the report body. -/
inductive Origin where
  | template
  | body
  deriving DecidableEq, Repr

/-- An element inside a results container. -/
structure Elem where
  classes : List String
  content : Content
  listeners : List Listener
  origin : Origin
  deriving DecidableEq, Repr

/-- A results container: an element with an id, its descendants and `style.display`. -/
structure Container where
  id : String
  content : List Elem
  display : String
  deriving DecidableEq, Repr

/-- Whether `querySelector('.' + cls)` can return the element. -/
def Elem.hasClass (cls : String) (e : Elem) : Bool := e.classes.contains cls

/-- The call `container.querySelector('.' + cls)`. -/
def querySelector (cls : String) (els : List Elem) : Option Elem :=
  els.find? (Elem.hasClass cls)

/-- Assigning `el.textContent = v`. -/
def setText (v : JSVal) (e : Elem) : Elem := { e with content := .text v.toText }

/-- Assigning `el.innerHTML = h`, as far as the element itself goes. -/
def setHTML (h : String) (e : Elem) : Elem := { e with content := .html h }

/-- The call `el.addEventListener('click', l)`. -/
def addListener (l : Listener) (e : Elem) : Elem := { e with listeners := e.listeners ++ [l] }

/-- The statement `container.querySelector('.' + cls).X = ...` (or a method call
on the result): it throws when no element has the class. -/
def writeCell (cls : String) (f : Elem → Elem) (els : List Elem) : Completion (List Elem) :=
  match updateFirst (Elem.hasClass cls) f els with
  | some els' => .normal els'
  | none => .throw ("Cannot set properties of null (querySelector '." ++ cls ++ "')") els

/-- The elements parsed markup gives: fresh, without listeners. -/
def instantiate (o : Origin) (ms : List Markup) : List Elem :=
  ms.map fun m => { classes := m.classes, content := .text m.text, listeners := [], origin := o }

/-- The statement `container.querySelector('.' + cls).innerHTML = h`: the element
holds the markup `h`, and the elements parsed out of `h` follow it in document
order.  It throws when no element has the class. -/
def writeHTML (parseHTML : String → List Markup) (cls : String) (h : String)
    (els : List Elem) : Completion (List Elem) :=
  match updateFirstInsert (Elem.hasClass cls) (setHTML h)
      (instantiate .body (parseHTML h)) els with
  | some els' => .normal els'
  | none => .throw ("Cannot set properties of null (querySelector '." ++ cls ++ "')") els

/-- The expression `data.full_report_markdown || 'No report generated'`. -/
def reportBody (md : Option String) : String :=
  match md with
  | some s => if s != "" then s else "No report generated"
  | none => "No report generated"

/-- Lines 101-106: one score line.  Reading a key of a missing `risk_breakdown` throws. -/
def scoreLine (data : Report) (cls : String) (key : RiskBreakdown → JSVal)
    (els : List Elem) : Completion (List Elem) :=
  match data.risk_breakdown with
  | none => .throw "Cannot read properties of undefined (risk_breakdown)" els
  | some rb => writeCell cls (setText ((key rb).or (.str "--"))) els

/-- Lines 108-111: one count line.  Reading a key of a missing `stats` throws. -/
def countLine (data : Report) (cls : String) (key : Stats → JSVal)
    (els : List Elem) : Completion (List Elem) :=
  match data.stats with
  | none => .throw "Cannot read properties of undefined (stats)" els
  | some st => writeCell cls (setText ((key st).or (.num JSNum.zero))) els

/-- Lines 98-121 on the fresh content of the container. -/
def populate (parseHTML : String → List Markup) (marked : String → String) (data : Report)
    (els : List Elem) : Completion (List Elem) :=
  (writeCell "result-target" (setText data.target) els)
  |>.bind (writeHTML parseHTML "report-content" (marked (reportBody data.full_report_markdown)))
  |>.bind (scoreLine data "score-financial" (·.financial))
  |>.bind (scoreLine data "score-legal" (·.legal))
  |>.bind (scoreLine data "score-reputational" (·.reputational))
  |>.bind (scoreLine data "score-association" (·.association))
  |>.bind (scoreLine data "score-integrity" (·.integrity))
  |>.bind (scoreLine data "score-operational" (·.operational))
  |>.bind (countLine data "count-sources" (·.sources))
  |>.bind (countLine data "count-people" (·.people))
  |>.bind (countLine data "count-orgs" (·.organizations))
  |>.bind (countLine data "count-events" (·.events))
  |>.bind (writeCell "download-pdf" (addListener (.downloadPdf data.report_id)))

/-- Lines 94-122.  `template` is the parsed markup that
`document.getElementById('resultsTemplate')` holds (`none`: no such element),
`container` the element passed in (`none`: `null`). -/
def displayResults (parseHTML : String → List Markup) (marked : String → String)
    (template : Option (List Markup)) (data : Report) (container : Option Container) :
    Completion (Option Container) :=
  match template with
  | none => .throw "Cannot read properties of null (reading 'innerHTML')" container
  | some tpl =>
    match container with
    | none => .throw "Cannot set properties of null (setting 'innerHTML')" none
    | some c =>
      match populate parseHTML marked data (instantiate .template tpl) with
      | .normal els => .normal (some { c with content := els })
      | .throw m els => .throw m (some { c with content := els })

/-- The classes the renderer selects by, in the order of lines 98-115. -/
def selectorClasses : List String :=
  ["result-target", "report-content",
   "score-financial", "score-legal", "score-reputational",
   "score-association", "score-integrity", "score-operational",
   "count-sources", "count-people", "count-orgs", "count-events", "download-pdf"]

/-- Every selector of the renderer matches one of the elements (given by their class lists). -/
def completeClasses (cl : List (List String)) : Bool :=
  selectorClasses.all fun s => cl.any fun cs => cs.contains s

/-- No element (given by its class list) is matched by two selectors of the renderer. -/
def separateClasses (cl : List (List String)) : Bool :=
  cl.all fun cs => selectorClasses.all fun s => selectorClasses.all fun t =>
    s == t || !(cs.contains s && cs.contains t)

/-- Every selector of the renderer matches an element of the template. -/
def templateComplete (tpl : List Markup) : Bool := completeClasses (tpl.map (·.classes))

/-- The template has a separate element for each selector of the renderer. -/
def templateSeparate (tpl : List Markup) : Bool := separateClasses (tpl.map (·.classes))

/-- The markup of a report body has no element of the class `cls`. -/
def bodyLacks (cls : String) (body : List Markup) : Bool :=
  body.all fun m => !m.classes.contains cls

/-- An element of the template that has the class `cls`. -/
def isTemplateCell (cls : String) (e : Elem) : Bool :=
  e.origin == .template && e.hasClass cls

/-- The cell of the template with the class `cls`: the first element of the
container that came from the template and has the class. -/
def templateCell (cls : String) (els : List Elem) : Option Elem :=
  els.find? (isTemplateCell cls)

/-- The content shown by the template's cell of the class `cls`. -/
def cellContent (cls : String) (c : Option Container) : Option Content :=
  c.bind fun c => (templateCell cls c.content).map (·.content)

/-! ## The page and `runResearch` -/

/-- A submit control: `style.display` of its `.btn-text` and `.btn-loader`
children (`none`: no such child) and its `disabled` flag.  `ref` identifies the
element; the control with the id `submitBtn` has the ref `"submitBtn"`. -/
structure SubmitBtn where
  ref : String
  btnText : Option String
  btnLoader : Option String
  disabled : Bool
  deriving DecidableEq, Repr

/-- A request issued through `fetch`. -/
structure Request where
  url : String
  method : String
  body : ResearchData
  deriving DecidableEq, Repr

/-- The part of the page and window the script reads and writes. -/
structure Page where
  template : Option (List Markup)
  containers : List Container
  controls : List SubmitBtn
  alerts : List String
  console : List String
  location : String
  requests : List Request
  deriving DecidableEq, Repr

/-- The call `document.getElementById(id)` for a results container. -/
def getElementById (pg : Page) (id : String) : Option Container :=
  pg.containers.find? (·.id == id)

/-- Stores a new state of the container `document.getElementById(id)` returns. -/
def putContainer (pg : Page) (id : String) (c : Container) : Page :=
  { pg with containers := (updateFirst (·.id == id) (fun _ => c) pg.containers).getD pg.containers }

/-- The submit control with a given ref. -/
def getControl (pg : Page) (ref : String) : Option SubmitBtn :=
  pg.controls.find? (·.ref == ref)

/-- Stores a new state of a submit control. -/
def putControl (pg : Page) (b : SubmitBtn) : Page :=
  { pg with controls := (updateFirst (·.ref == b.ref) (fun _ => b) pg.controls).getD pg.controls }

/-- The global `event` as `runResearch` uses it: the control that
`event.target.querySelector('.submit-btn')` returns, if any. -/
structure Event where
  submitBtn : Option String
  deriving DecidableEq, Repr

/-- Line 62: `event.target.querySelector('.submit-btn') || document.getElementById('submitBtn')`. -/
def resolveSubmitBtn (pg : Page) (ev : Event) : Option SubmitBtn :=
  match ev.submitBtn.bind (getControl pg) with
  | some b => some b
  | none => getControl pg "submitBtn"

/-- Lines 64-66 (with `text = "none"`, `loader = "inline-flex"`, `dis = true`) and
lines 88-90 (with `"inline"`, `"none"`, `false`). -/
def setVisuals (text loader : String) (dis : Bool) (b : SubmitBtn) : Completion SubmitBtn :=
  match b.btnText with
  | none => .throw "Cannot read properties of null (reading 'style')" b
  | some _ =>
    let b1 := { b with btnText := some text }
    match b1.btnLoader with
    | none => .throw "Cannot read properties of null (reading 'style')" b1
    | some _ => .normal { b1 with btnLoader := some loader, disabled := dis }

/-- How the promise `fetch(...).then(res => res.json())` settles: with the parsed
response, or rejected (transport failure, a body that is not JSON) with an
error whose `message` is given. -/
inductive FetchOutcome where
  | json (result : Report)
  | rejected (message : String)
  deriving DecidableEq, Repr

/-- Lines 83-86: the `catch` handler. -/
def catchHandler (message : String) (pg : Page) : Page :=
  { pg with console := pg.console ++ [message],
            alerts := pg.alerts ++ ["Research failed: " ++ message] }

/-- Lines 74-82: the handler of the parsed response; a throw rejects the promise. -/
def thenHandler (parseHTML : String → List Markup) (marked : String → String)
    (containerId : String) (result : Report) (pg : Page) : Completion Page :=
  if result.error.truthy then
    .normal { pg with alerts := pg.alerts ++ ["Error: " ++ result.error.toStr] }
  else
    match displayResults parseHTML marked pg.template result
        (getElementById pg containerId) with
    | .throw m (some c) => .throw m (putContainer pg containerId c)
    | .throw m none => .throw m pg
    | .normal none => .normal pg
    | .normal (some c) => .normal (putContainer pg containerId { c with display := "block" })

/-- Lines 87-91: the `finally` handler on the control captured at line 62. -/
def finallyHandler (ref : String) (pg : Page) : Completion Page :=
  match getControl pg ref with
  | none => .throw "submit control is gone" pg
  | some b =>
    match setVisuals "inline" "none" false b with
    | .normal b' => .normal (putControl pg b')
    | .throw m b' => .throw m (putControl pg b')

/-- Lines 73-86: the `then` handler on the parsed response and the `catch`
handler on a rejection or a throw of the `then` handler. -/
def afterCatch (parseHTML : String → List Markup) (marked : String → String)
    (containerId : String) (out : FetchOutcome) (pg : Page) : Page :=
  match out with
  | .rejected m => catchHandler m pg
  | .json result =>
    match thenHandler parseHTML marked containerId result pg with
    | .normal pg' => pg'
    | .throw m pg' => catchHandler m pg'

/-- Lines 73-91: what runs once the request has settled. -/
def onSettled (parseHTML : String → List Markup) (marked : String → String)
    (ref containerId : String) (out : FetchOutcome) (pg : Page) : Completion Page :=
  finallyHandler ref (afterCatch parseHTML marked containerId out pg)

/-- Lines 60-72: the synchronous part, up to the call of `fetch`.  On a normal
completion the second component is the ref of the control held by `submitBtn`. -/
def runResearchBegin (pg : Page) (ev : Event) (data : ResearchData) :
    Completion Page × Option String :=
  match resolveSubmitBtn pg ev with
  | none => (.throw "Cannot read properties of null (reading 'querySelector')" pg, none)
  | some b =>
    match setVisuals "none" "inline-flex" true b with
    | .throw m b' => (.throw m (putControl pg b'), none)
    | .normal b' =>
      (.normal { putControl pg b' with
                 requests := pg.requests ++ [{ url := "/research", method := "POST", body := data }] },
       some b.ref)

/-- Lines 60-92 for a request that settles with `out`: the page after the
`finally` handler, or the page at the throw when no request was issued. -/
def runResearch (parseHTML : String → List Markup) (marked : String → String) (pg : Page)
    (ev : Event) (data : ResearchData) (containerId : String) (out : FetchOutcome) :
    Completion Page :=
  match runResearchBegin pg ev data with
  | (.normal pg1, some ref) => onSettled parseHTML marked ref containerId out pg1
  | (r, _) => r

/-- The entries of a submitted form, as `new FormData(e.target)` lists them. -/
abbrev FormData := List (String × String)

/-- The call `formData.get(name)`: the first value with the name, or `null`. -/
def FormData.get (fd : FormData) (name : String) : JSVal :=
  match fd.find? (·.1 == name) with
  | some kv => .str kv.2
  | none => .null

/-- Lines 47-58: the two arguments the submit handler hands to `runResearch`. -/
def researchFormSubmit (fd : FormData) : ResearchData × String :=
  ({ target := fd.get "target", context := fd.get "context", focus := fd.get "focus",
     time_period := fd.get "time_period", industry := fd.get "industry",
     location := fd.get "location" },
   "results-new-research")

/-- Lines 116-120: the body of the download listener. -/
def downloadHandler (reportId : JSVal) (pg : Page) : Page :=
  if reportId.truthy then
    { pg with location := "/download_pdf/" ++ reportId.toStr }
  else
    { pg with alerts := pg.alerts ++ ["Report ID not found. Please regenerate the report."] }

/-- Runs one click listener. -/
def Listener.run : Listener → Page → Page
  | .downloadPdf reportId => downloadHandler reportId

/-- A click on an element: its listeners run in the order they were added. -/
def click (e : Elem) (pg : Page) : Page :=
  e.listeners.foldl (fun p l => l.run p) pg

/-- A click on the download control of a container, the template's element of
the class `download-pdf` (nothing happens without one). -/
def clickDownload (c : Option Container) (pg : Page) : Page :=
  match c.bind fun c => templateCell "download-pdf" c.content with
  | some e => click e pg
  | none => pg

/-! ## Auxiliary definitions for the statements -/

/-- A list of cell writes run in order, stopping at the first throw. -/
def runWrites : List (String × (Elem → Elem)) → List Elem → Completion (List Elem)
  | [], els => .normal els
  | w :: ws, els => (writeCell w.1 w.2 els).bind (runWrites ws)

/-- The writes of lines 101-115, after the report body, for a report whose two
mappings are `rb` and `st`. -/
def tailWrites (data : Report) (rb : RiskBreakdown) (st : Stats) :
    List (String × (Elem → Elem)) :=
  [("score-financial", setText (rb.financial.or (.str "--"))),
   ("score-legal", setText (rb.legal.or (.str "--"))),
   ("score-reputational", setText (rb.reputational.or (.str "--"))),
   ("score-association", setText (rb.association.or (.str "--"))),
   ("score-integrity", setText (rb.integrity.or (.str "--"))),
   ("score-operational", setText (rb.operational.or (.str "--"))),
   ("count-sources", setText (st.sources.or (.num JSNum.zero))),
   ("count-people", setText (st.people.or (.num JSNum.zero))),
   ("count-orgs", setText (st.organizations.or (.num JSNum.zero))),
   ("count-events", setText (st.events.or (.num JSNum.zero))),
   ("download-pdf", addListener (.downloadPdf data.report_id))]

/-- Lines 98-99: the target name and the report body. -/
def headWrites (parseHTML : String → List Markup) (marked : String → String) (data : Report)
    (els : List Elem) : Completion (List Elem) :=
  (writeCell "result-target" (setText data.target) els).bind
    (writeHTML parseHTML "report-content" (marked (reportBody data.full_report_markdown)))

/-- The elements parsed out of the rendered report body. -/
def bodyMarkup (parseHTML : String → List Markup) (marked : String → String) (data : Report) :
    List Markup :=
  parseHTML (marked (reportBody data.full_report_markdown))

/-- The six score cells of lines 101-106 with the key each one shows. -/
def scoreCells : List (String × (RiskBreakdown → JSVal)) :=
  [("score-financial", (·.financial)), ("score-legal", (·.legal)),
   ("score-reputational", (·.reputational)), ("score-association", (·.association)),
   ("score-integrity", (·.integrity)), ("score-operational", (·.operational))]

/-- The four count cells of lines 108-111 with the key each one shows. -/
def countCells : List (String × (Stats → JSVal)) :=
  [("count-sources", (·.sources)), ("count-people", (·.people)),
   ("count-orgs", (·.organizations)), ("count-events", (·.events))]

/-- The elements of a container's content that have the class, in document order. -/
def elementsOf (cls : String) (c : Option Container) : List Elem :=
  match c with
  | some c => c.content.filter (Elem.hasClass cls)
  | none => []

/-! ## Concrete pages and reports -/

/-- A template with one element for each selector of the renderer. -/
def exTemplate : List Markup :=
  selectorClasses.map fun s => { classes := [s], text := "" }

/-- The template of the specification: `count-organizations` where the renderer
selects `count-orgs`. -/
def specTemplate : List Markup :=
  ["result-target", "report-content",
   "score-financial", "score-legal", "score-reputational",
   "score-association", "score-integrity", "score-operational",
   "count-sources", "count-people", "count-organizations", "count-events",
   "download-pdf"].map fun s => { classes := [s], text := "" }

/-- A template with both a `count-orgs` and a `count-organizations` element. -/
def bothTemplate : List Markup :=
  exTemplate ++ [{ classes := ["count-organizations"], text := "" }]

/-- The mapping `risk_breakdown` of the report `exReport`: a zero legal score, a
fractional integrity score, no association key. -/
def exRisk : RiskBreakdown :=
  { financial := .num { text := "3", truthy := true },
    legal := .num JSNum.zero,
    reputational := .str "high",
    association := .undefined,
    integrity := .num { text := "7.5", truthy := true },
    operational := .num { text := "1", truthy := true } }

/-- The mapping `stats` of the report `exReport`: a count printed with an
exponent, a zero count, no events key. -/
def exStats : Stats :=
  { sources := .num { text := "1e+21", truthy := true },
    people := .num JSNum.zero,
    organizations := .num { text := "7", truthy := true },
    events := .undefined }

/-- A report with both mappings. -/
def exReport : Report :=
  { target := .str "Acme",
    full_report_markdown := some "# Acme",
    risk_breakdown := some exRisk,
    stats := some exStats,
    report_id := .str "r42",
    error := .undefined }

/-- A report body that is raw markup with elements of four selector classes. -/
def injectedBody : String :=
  "<b class=score-financial></b><b class=score-association></b>" ++
  "<b class=count-orgs></b><b class=download-pdf></b>"

/-- The report `exReport` with the body `injectedBody`. -/
def injectReport : Report := { exReport with full_report_markdown := some injectedBody }

/-- The parser on the bodies used below: the four elements of `injectedBody`,
and no element for a body without markup. -/
def exParse (h : String) : List Markup :=
  if h = injectedBody then
    [{ classes := ["score-financial"], text := "" },
     { classes := ["score-association"], text := "" },
     { classes := ["count-orgs"], text := "" },
     { classes := ["download-pdf"], text := "" }]
  else []

/-- An empty, hidden results container. -/
def exContainer (id : String) : Container := { id := id, content := [], display := "none" }

/-- The submit control of the research form, idle. -/
def exBtn : SubmitBtn :=
  { ref := "submitBtn", btnText := some "inline", btnLoader := some "none", disabled := false }

/-- A page with the four results containers, the template and the submit control. -/
def exPage : Page :=
  { template := some exTemplate,
    containers := [exContainer "results-elizabeth-holmes", exContainer "results-sam-bankman",
                   exContainer "results-martin-shkreli", exContainer "results-new-research"],
    controls := [exBtn],
    alerts := [], console := [], location := "/", requests := [] }

/-- The response `{"error": ""}`: an error field with an empty message, nothing else. -/
def emptyErrorResponse : Report :=
  { target := .undefined, full_report_markdown := none, risk_breakdown := none, stats := none,
    report_id := .undefined, error := .str "" }

/-- The entries of the research form with the target Acme. -/
def exForm : FormData :=
  [("target", "Acme"), ("context", ""), ("focus", ""), ("time_period", ""),
   ("industry", ""), ("location", "")]

/-- A document with two tab buttons and their panes, the first tab active. -/
def exTabs : List TabElem :=
  [{ id := none, classes := ["tab-btn", "active"], dataTarget := some "presets" },
   { id := none, classes := ["tab-btn"], dataTarget := some "new-research" },
   { id := some "presets", classes := ["tab-content", "active"], dataTarget := none },
   { id := some "new-research", classes := ["tab-content"], dataTarget := none }]


/-! ## Theorems: the container identifier -/

theorem replaceAll_data (pattern : Char → Bool) (r s : String) :
    (replaceAll pattern r s).data = s.data.flatMap fun c => if pattern c then r.data else [c] :=
  rfl

theorem space_not_inLowerHyphen : inLowerHyphen ' ' = false := by decide

theorem slug_chars (l : List Char) :
    (l.flatMap fun c => if reSpace c then "-".data else [c]).flatMap
        (fun c => if reNotLowerHyphen c then "".data else [c])
      = (l.map fun c => if c = ' ' then '-' else c).filter inLowerHyphen := by
  induction l with
  | nil => rfl
  | cons c cs ih =>
    simp only [List.flatMap_cons, List.flatMap_append, List.map_cons, ih]
    by_cases hc : c = ' '
    · subst hc
      have h2 : inLowerHyphen '-' = true := by decide
      have h3 : reNotLowerHyphen '-' = false := by decide
      have h4 : reSpace ' ' = true := by decide
      have h5 : "-".data = ['-'] := rfl
      simp [h2, h3, h4, h5, List.filter_cons, List.flatMap_cons]
    · have h1 : reSpace c = false := by simp [reSpace, hc]
      simp only [h1, if_neg hc, List.flatMap_cons, List.flatMap_nil, List.append_nil,
        List.filter_cons, reNotLowerHyphen]
      cases h : inLowerHyphen c <;> simp [h]

theorem tabId_eq_specSlug (lower : String → String) (name : String) :
    tabId lower name = specSlug lower name := by
  apply String.ext
  simp only [tabId, replaceAll_data, specSlug]
  exact slug_chars _

theorem mem_tabId (lower : String → String) (name : String) (c : Char)
    (h : c ∈ (tabId lower name).data) : inLowerHyphen c = true := by
  rw [tabId_eq_specSlug] at h
  simp only [specSlug] at h
  exact (List.mem_filter.mp h).2

theorem slug_chars_fixed (l : List Char) (h : ∀ c ∈ l, inLowerHyphen c = true) :
    (l.map fun c => if c = ' ' then '-' else c).filter inLowerHyphen = l := by
  induction l with
  | nil => rfl
  | cons c cs ih =>
    have hc : inLowerHyphen c = true := h c (List.mem_cons_self _ _)
    have hne : c ≠ ' ' := by
      intro he
      rw [he, space_not_inLowerHyphen] at hc
      exact Bool.noConfusion hc
    simp only [List.map_cons, if_neg hne, List.filter_cons, hc, if_true]
    rw [ih fun d hd => h d (List.mem_cons_of_mem _ hd)]

theorem toLower_fixed (c : Char) (h : inLowerHyphen c = true) : c.toLower = c := by
  have hv : ¬ (c.toNat ≥ 65 ∧ c.toNat ≤ 90) := by
    intro ⟨h65, h90⟩
    simp only [inLowerHyphen, Bool.or_eq_true, Bool.and_eq_true, decide_eq_true_eq,
      beq_iff_eq] at h
    rcases h with ⟨ha, _⟩ | hh
    · have ha' : (97 : Nat) ≤ c.toNat := ha
      omega
    · subst hh
      exact absurd h65 (by decide)
  simp only [Char.toLower, hv, if_false]

theorem asciiLower_fixed (s : String) (h : ∀ c ∈ s.data, inLowerHyphen c = true) :
    asciiLower s = s := by
  apply String.ext
  simp only [asciiLower]
  have : ∀ l : List Char, (∀ c ∈ l, inLowerHyphen c = true) → l.map Char.toLower = l := by
    intro l
    induction l with
    | nil => intro _; rfl
    | cons c cs ih =>
      intro hl
      rw [List.map_cons, toLower_fixed c (hl c (List.mem_cons_self _ _)),
        ih fun d hd => hl d (List.mem_cons_of_mem _ hd)]
  exact this s.data h

/-- C1: for every display name passed to `runPreset`, the container identifier
handed to `runResearch` is "results-" followed by the name lowercased, then with
every space replaced by a hyphen, then with every character outside `[a-z-]`
removed; the name "Martin Shkreli" (which `toLowerCase` turns into
"martin shkreli") yields "results-martin-shkreli". -/
theorem runPreset_container_id (lower : String → String) (name : String)
    (context focus time_period industry location : JSVal) :
    (runPreset lower name context focus time_period industry location).2
        = "results-" ++ specSlug lower name
    ∧ (lower "Martin Shkreli" = "martin shkreli" →
        (runPreset lower "Martin Shkreli" context focus time_period industry location).2
          = "results-martin-shkreli") := by
  refine ⟨?_, fun h => ?_⟩
  · simp only [runPreset, tabId_eq_specSlug]
  · simp only [runPreset, tabId, h]
    decide

theorem runPreset_container_id_witness :
    asciiLower "Martin Shkreli" = "martin shkreli"
    ∧ (runPreset asciiLower "Martin Shkreli" .null .null .null .null .null).2
        = "results-martin-shkreli" :=
  ⟨by decide,
   (runPreset_container_id asciiLower "Martin Shkreli" .null .null .null .null .null).2
     (by decide)⟩

/-- C10: for every display name, the part of the container identifier that
`runPreset` derives after the "results-" prefix contains only the characters a
to z and the hyphen, and applying the same derivation to that part returns it
unchanged (`toLowerCase` leaving a string over `[a-z-]` as it is). -/
theorem tabId_charset_idempotent (lower : String → String) (name : String)
    (context focus time_period industry location : JSVal) :
    (runPreset lower name context focus time_period industry location).2
        = "results-" ++ tabId lower name
    ∧ (∀ c ∈ (tabId lower name).data, ('a' ≤ c ∧ c ≤ 'z') ∨ c = '-')
    ∧ ((∀ s : String, (∀ c ∈ s.data, ('a' ≤ c ∧ c ≤ 'z') ∨ c = '-') → lower s = s) →
        tabId lower (tabId lower name) = tabId lower name) := by
  have hmem : ∀ c ∈ (tabId lower name).data, ('a' ≤ c ∧ c ≤ 'z') ∨ c = '-' := by
    intro c hc
    have := mem_tabId lower name c hc
    simpa [inLowerHyphen] using this
  refine ⟨rfl, hmem, fun hl => ?_⟩
  have h1 : lower (tabId lower name) = tabId lower name := hl _ hmem
  apply String.ext
  rw [tabId_eq_specSlug lower (tabId lower name)]
  simp only [specSlug, h1]
  exact slug_chars_fixed _ (mem_tabId lower name)

theorem tabId_charset_idempotent_witness :
    tabId asciiLower (tabId asciiLower "Dr. Who 2") = tabId asciiLower "Dr. Who 2" :=
  (tabId_charset_idempotent asciiLower "Dr. Who 2" .null .null .null .null .null).2.2
    (fun s hs => asciiLower_fixed s (fun c hc => by
      have := hs c hc
      simpa [inLowerHyphen] using this))

/-! ## Theorems: writing cells -/

theorem Completion.bind_assoc {σ : Type} (r : Completion σ) (f g : σ → Completion σ) :
    (r.bind f).bind g = r.bind fun s => (f s).bind g := by
  cases r <;> rfl

theorem updateFirst_isSome {α : Type} (p : α → Bool) (f : α → α) (l : List α)
    (h : ∃ a ∈ l, p a = true) : ∃ l', updateFirst p f l = some l' := by
  induction l with
  | nil => obtain ⟨a, ha, _⟩ := h; cases ha
  | cons b bs ih =>
    by_cases hb : p b = true
    · exact ⟨f b :: bs, by simp [updateFirst, hb]⟩
    · obtain ⟨a, ha, hpa⟩ := h
      have hin : a ∈ bs := by
        rcases List.mem_cons.mp ha with rfl | h'
        · exact absurd hpa hb
        · exact h'
      obtain ⟨l', hl'⟩ := ih ⟨a, hin, hpa⟩
      exact ⟨b :: l', by simp [updateFirst, hb, hl']⟩

theorem updateFirst_cons_some {α : Type} (p : α → Bool) (f : α → α) (b : α) (bs l' : List α)
    (h : updateFirst p f (b :: bs) = some l') :
    (p b = true ∧ l' = f b :: bs) ∨
    (p b = false ∧ ∃ t, updateFirst p f bs = some t ∧ l' = b :: t) := by
  by_cases hb : p b = true
  · left
    simp only [updateFirst, hb, if_true, Option.some.injEq] at h
    exact ⟨hb, h.symm⟩
  · right
    have hb' : p b = false := by simpa using hb
    simp only [updateFirst, hb', Bool.false_eq_true, if_false, Option.map_eq_some'] at h
    obtain ⟨t, ht, rfl⟩ := h
    exact ⟨hb', t, ht, rfl⟩

theorem updateFirst_map {α β : Type} (g : α → β) (p : α → Bool) (f : α → α)
    (hg : ∀ a, g (f a) = g a) (l l' : List α) (h : updateFirst p f l = some l') :
    l'.map g = l.map g := by
  induction l generalizing l' with
  | nil => cases h
  | cons b bs ih =>
    rcases updateFirst_cons_some p f b bs l' h with ⟨_, rfl⟩ | ⟨_, t, ht, rfl⟩
    · simp [hg]
    · simp [ih t ht]

theorem updateFirst_forall {α : Type} (P : α → Prop) (p : α → Bool) (f : α → α)
    (hf : ∀ a, P a → P (f a)) (l l' : List α) (h : updateFirst p f l = some l')
    (hl : ∀ a ∈ l, P a) : ∀ a ∈ l', P a := by
  induction l generalizing l' with
  | nil => cases h
  | cons b bs ih =>
    rcases updateFirst_cons_some p f b bs l' h with ⟨_, rfl⟩ | ⟨_, t, ht, rfl⟩
    · intro a ha
      rcases List.mem_cons.mp ha with rfl | h'
      · exact hf _ (hl b (List.mem_cons_self _ _))
      · exact hl a (List.mem_cons_of_mem _ h')
    · intro a ha
      rcases List.mem_cons.mp ha with rfl | h'
      · exact hl _ (List.mem_cons_self _ _)
      · exact ih t ht (fun x hx => hl x (List.mem_cons_of_mem _ hx)) a h'

theorem updateFirst_find_same {α : Type} (p : α → Bool) (f : α → α)
    (hp : ∀ a, p a = true → p (f a) = true) (l l' : List α)
    (h : updateFirst p f l = some l') :
    ∃ a, a ∈ l ∧ l.find? p = some a ∧ l'.find? p = some (f a) := by
  induction l generalizing l' with
  | nil => cases h
  | cons b bs ih =>
    rcases updateFirst_cons_some p f b bs l' h with ⟨hb, rfl⟩ | ⟨hb, t, ht, rfl⟩
    · exact ⟨b, List.mem_cons_self _ _, by simp [List.find?_cons, hb],
        by simp [List.find?_cons, hp b hb]⟩
    · obtain ⟨a, ha, h1, h2⟩ := ih t ht
      exact ⟨a, List.mem_cons_of_mem _ ha, by simp [List.find?_cons, hb, h1],
        by simp [List.find?_cons, hb, h2]⟩

theorem updateFirst_find_other {α : Type} (p q : α → Bool) (f : α → α) (l l' : List α)
    (h : updateFirst p f l = some l')
    (hq : ∀ a ∈ l, p a = true → q a = false ∧ q (f a) = false) :
    l'.find? q = l.find? q := by
  induction l generalizing l' with
  | nil => cases h
  | cons b bs ih =>
    rcases updateFirst_cons_some p f b bs l' h with ⟨hb, rfl⟩ | ⟨_, t, ht, rfl⟩
    · obtain ⟨h1, h2⟩ := hq b (List.mem_cons_self _ _) hb
      simp [List.find?_cons, h1, h2]
    · have := ih t ht (fun a ha => hq a (List.mem_cons_of_mem _ ha))
      simp [List.find?_cons, this]

theorem find_congr_of_mem {α : Type} (p q : α → Bool) (l : List α)
    (h : ∀ a ∈ l, p a = q a) : l.find? p = l.find? q := by
  induction l with
  | nil => rfl
  | cons a as ih =>
    simp only [List.find?_cons, h a (List.mem_cons_self _ _)]
    rw [ih (fun x hx => h x (List.mem_cons_of_mem _ hx))]

theorem find_append_hit {α : Type} (p : α → Bool) (pre : List α) (a : α) (rest : List α)
    (hpre : ∀ x ∈ pre, p x = false) (ha : p a = true) :
    (pre ++ a :: rest).find? p = some a := by
  induction pre with
  | nil => simp [List.find?_cons, ha]
  | cons b bs ih =>
    simp only [List.cons_append, List.find?_cons, hpre b (List.mem_cons_self _ _)]
    exact ih (fun x hx => hpre x (List.mem_cons_of_mem _ hx))

theorem updateFirstInsert_spec {α : Type} (p : α → Bool) (f : α → α) (ins l l' : List α)
    (h : updateFirstInsert p f ins l = some l') :
    ∃ pre a post, l = pre ++ a :: post ∧ (∀ x ∈ pre, p x = false) ∧ p a = true
      ∧ l' = pre ++ f a :: (ins ++ post) := by
  induction l generalizing l' with
  | nil => cases h
  | cons b bs ih =>
    by_cases hb : p b = true
    · simp only [updateFirstInsert, hb, if_true, Option.some.injEq] at h
      exact ⟨[], b, bs, rfl, (fun x hx => by cases hx), hb, h.symm⟩
    · have hb' : p b = false := by simpa using hb
      simp only [updateFirstInsert, hb', Bool.false_eq_true, if_false,
        Option.map_eq_some'] at h
      obtain ⟨t, ht, rfl⟩ := h
      obtain ⟨pre, a, post, h1, h2, h3, h4⟩ := ih t ht
      refine ⟨b :: pre, a, post, by rw [h1]; rfl, ?_, h3, by rw [h4]; rfl⟩
      intro x hx
      rcases List.mem_cons.mp hx with rfl | hx'
      · exact hb'
      · exact h2 x hx'

theorem updateFirstInsert_isSome {α : Type} (p : α → Bool) (f : α → α) (ins l : List α)
    (h : ∃ a ∈ l, p a = true) : ∃ l', updateFirstInsert p f ins l = some l' := by
  induction l with
  | nil => obtain ⟨a, ha, _⟩ := h; cases ha
  | cons b bs ih =>
    by_cases hb : p b = true
    · exact ⟨f b :: (ins ++ bs), by simp [updateFirstInsert, hb]⟩
    · obtain ⟨a, ha, hpa⟩ := h
      have hin : a ∈ bs := by
        rcases List.mem_cons.mp ha with rfl | h'
        · exact absurd hpa hb
        · exact h'
      obtain ⟨l', hl'⟩ := ih ⟨a, hin, hpa⟩
      exact ⟨b :: l', by simp [updateFirstInsert, hb, hl']⟩

theorem writeCell_normal (cls : String) (f : Elem → Elem) (els els' : List Elem)
    (h : writeCell cls f els = .normal els') :
    updateFirst (Elem.hasClass cls) f els = some els' := by
  unfold writeCell at h
  cases hu : updateFirst (Elem.hasClass cls) f els with
  | none => rw [hu] at h; cases h
  | some t => rw [hu] at h; cases h; rfl

theorem hasClass_of_classes (cls : String) (e e' : Elem) (h : e'.classes = e.classes) :
    Elem.hasClass cls e' = Elem.hasClass cls e := by
  simp [Elem.hasClass, h]

theorem runWrites_cons_normal (w : String × (Elem → Elem)) (ws : List (String × (Elem → Elem)))
    (els els' : List Elem) (h : runWrites (w :: ws) els = .normal els') :
    ∃ mid, writeCell w.1 w.2 els = .normal mid ∧ runWrites ws mid = .normal els' := by
  simp only [runWrites] at h
  cases hw : writeCell w.1 w.2 els with
  | normal mid => rw [hw] at h; exact ⟨mid, rfl, h⟩
  | throw m t => rw [hw] at h; cases h

theorem runWrites_forall (P : Elem → Prop) (ws : List (String × (Elem → Elem)))
    (hw : ∀ w ∈ ws, ∀ e, P e → P (w.2 e)) (els els' : List Elem)
    (h : runWrites ws els = .normal els') (hl : ∀ e ∈ els, P e) : ∀ e ∈ els', P e := by
  induction ws generalizing els with
  | nil => simp only [runWrites] at h; cases h; exact hl
  | cons w ws ih =>
    obtain ⟨mid, h1, h2⟩ := runWrites_cons_normal w ws els els' h
    exact ih (fun x hx => hw x (List.mem_cons_of_mem _ hx)) mid h2
      (updateFirst_forall P _ _ (hw w (List.mem_cons_self _ _)) els mid
        (writeCell_normal _ _ _ _ h1) hl)

theorem runWrites_ok (ws : List (String × (Elem → Elem)))
    (hw : ∀ w ∈ ws, ∀ e, (w.2 e).classes = e.classes) (els : List Elem)
    (hc : ∀ w ∈ ws, ∃ cs ∈ els.map (·.classes), cs.contains w.1 = true) :
    ∃ els', runWrites ws els = .normal els' := by
  induction ws generalizing els with
  | nil => exact ⟨els, rfl⟩
  | cons w ws ih =>
    obtain ⟨cs, hcs, hcw⟩ := hc w (List.mem_cons_self _ _)
    obtain ⟨e, he, rfl⟩ := List.mem_map.mp hcs
    obtain ⟨mid, hmid⟩ := updateFirst_isSome (Elem.hasClass w.1) w.2 els ⟨e, he, hcw⟩
    have hm : mid.map (·.classes) = els.map (·.classes) :=
      updateFirst_map (·.classes) _ _ (hw w (List.mem_cons_self _ _)) els mid hmid
    obtain ⟨els', h'⟩ := ih (fun x hx => hw x (List.mem_cons_of_mem _ hx)) mid
      (fun x hx => by rw [hm]; exact hc x (List.mem_cons_of_mem _ hx))
    exact ⟨els', by simp [runWrites, writeCell, hmid, Completion.bind, h']⟩

theorem runWrites_frame (q : Elem → Bool) (post : List (String × (Elem → Elem)))
    (hcl : ∀ w ∈ post, ∀ e, (w.2 e).classes = e.classes)
    (hq : ∀ w ∈ post, ∀ e, q (w.2 e) = q e) (els els' : List Elem)
    (hd : ∀ e ∈ els, ∀ w ∈ post, Elem.hasClass w.1 e = true → q e = false)
    (h : runWrites post els = .normal els') :
    els'.find? q = els.find? q := by
  induction post generalizing els with
  | nil => simp only [runWrites] at h; cases h; rfl
  | cons w ws ih =>
    obtain ⟨mid, h1, h2⟩ := runWrites_cons_normal w ws els els' h
    have hu := writeCell_normal _ _ _ _ h1
    have hw := List.mem_cons_self w ws
    have hmid : ∀ e ∈ mid, ∀ w' ∈ w :: ws, Elem.hasClass w'.1 e = true → q e = false :=
      updateFirst_forall
        (fun e => ∀ w' ∈ w :: ws, Elem.hasClass w'.1 e = true → q e = false) _ _
        (fun a ha w' hw' hc => by
          rw [hq w hw a]
          exact ha w' hw' (by rw [← hasClass_of_classes w'.1 a (w.2 a) (hcl w hw a)]; exact hc))
        els mid hu hd
    rw [ih (fun x hx => hcl x (List.mem_cons_of_mem _ hx))
      (fun x hx => hq x (List.mem_cons_of_mem _ hx)) mid
      (fun e he w' hw' => hmid e he w' (List.mem_cons_of_mem _ hw')) h2]
    refine updateFirst_find_other _ q _ els mid hu ?_
    intro a ha hpa
    have h3 : q a = false := hd a ha w hw hpa
    exact ⟨h3, by rw [hq w hw a]; exact h3⟩

theorem runWrites_append (pre post : List (String × (Elem → Elem))) (els : List Elem) :
    runWrites (pre ++ post) els = (runWrites pre els).bind (runWrites post) := by
  induction pre generalizing els with
  | nil => rfl
  | cons w ws ih =>
    simp only [List.cons_append, runWrites]
    cases writeCell w.1 w.2 els with
    | normal mid => simp only [Completion.bind]; exact ih mid
    | throw m t => rfl

theorem runWrites_cell (q : Elem → Bool) (P : Elem → Prop) (c : String) (f : Elem → Elem)
    (pre post : List (String × (Elem → Elem))) (els els' : List Elem)
    (hcl : ∀ w ∈ pre ++ (c, f) :: post, ∀ e, (w.2 e).classes = e.classes)
    (hq : ∀ w ∈ pre ++ (c, f) :: post, ∀ e, q (w.2 e) = q e)
    (hcq : ∀ e ∈ els, q e = Elem.hasClass c e)
    (hd : ∀ e ∈ els, ∀ w ∈ post, Elem.hasClass w.1 e = true → q e = false)
    (hP : ∀ e ∈ els, P e) (hPpre : ∀ w ∈ pre, ∀ e, P e → P (w.2 e))
    (h : runWrites (pre ++ (c, f) :: post) els = .normal els') :
    ∃ e, P e ∧ els'.find? q = some (f e) := by
  have hin_pre : ∀ w ∈ pre, w ∈ pre ++ (c, f) :: post := fun w hw => List.mem_append_left _ hw
  have hin_cf : (c, f) ∈ pre ++ (c, f) :: post :=
    List.mem_append_right _ (List.mem_cons_self _ _)
  have hin_post : ∀ w ∈ post, w ∈ pre ++ (c, f) :: post :=
    fun w hw => List.mem_append_right _ (List.mem_cons_of_mem _ hw)
  rw [runWrites_append] at h
  cases hp : runWrites pre els with
  | throw m t => rw [hp] at h; cases h
  | normal e1 =>
    rw [hp] at h
    simp only [Completion.bind] at h
    obtain ⟨mid, h1, h2⟩ := runWrites_cons_normal (c, f) post e1 els' h
    have hu := writeCell_normal _ _ _ _ h1
    have hkeep : ∀ (g : Elem → Elem), (∀ e, (g e).classes = e.classes) → (∀ e, q (g e) = q e) →
        ∀ e, (q e = Elem.hasClass c e
              ∧ ∀ w ∈ post, Elem.hasClass w.1 e = true → q e = false) →
          (q (g e) = Elem.hasClass c (g e)
              ∧ ∀ w ∈ post, Elem.hasClass w.1 (g e) = true → q (g e) = false) := by
      intro g hg1 hg2 e he
      refine ⟨by rw [hg2 e, hasClass_of_classes c e (g e) (hg1 e)]; exact he.1, ?_⟩
      intro w hw hc
      rw [hg2 e]
      exact he.2 w hw (by rw [← hasClass_of_classes w.1 e (g e) (hg1 e)]; exact hc)
    have hR1 : ∀ e ∈ e1, (q e = Elem.hasClass c e
          ∧ ∀ w ∈ post, Elem.hasClass w.1 e = true → q e = false) ∧ P e :=
      runWrites_forall (fun e => (q e = Elem.hasClass c e
          ∧ ∀ w ∈ post, Elem.hasClass w.1 e = true → q e = false) ∧ P e) pre
        (fun w hw e he => ⟨hkeep w.2 (hcl w (hin_pre w hw)) (hq w (hin_pre w hw)) e he.1,
          hPpre w hw e he.2⟩)
        els e1 hp (fun e he => ⟨⟨hcq e he, hd e he⟩, hP e he⟩)
    have hR2 : ∀ e ∈ mid, q e = Elem.hasClass c e
          ∧ ∀ w ∈ post, Elem.hasClass w.1 e = true → q e = false :=
      updateFirst_forall (fun e => q e = Elem.hasClass c e
          ∧ ∀ w ∈ post, Elem.hasClass w.1 e = true → q e = false) _ _
        (hkeep f (hcl (c, f) hin_cf) (hq (c, f) hin_cf)) e1 mid hu
        (fun e he => (hR1 e he).1)
    obtain ⟨a, ha, _, h4⟩ := updateFirst_find_same (Elem.hasClass c) f
      (fun a ha => by rw [hasClass_of_classes c a (f a) (hcl (c, f) hin_cf a)]; exact ha)
      e1 mid hu
    refine ⟨a, (hR1 a ha).2, ?_⟩
    rw [runWrites_frame q post (fun w hw => hcl w (hin_post w hw))
      (fun w hw => hq w (hin_post w hw)) mid els' (fun e he => (hR2 e he).2) h2,
      find_congr_of_mem q (Elem.hasClass c) mid (fun e he => (hR2 e he).1)]
    exact h4

/-! ## Theorems: the renderer -/

theorem Completion.bind_normal {σ : Type} (r : Completion σ) :
    (r.bind fun s => .normal s) = r := by
  cases r <;> rfl

theorem runWrites_cons_eq (w : String × (Elem → Elem)) (ws : List (String × (Elem → Elem)))
    (els : List Elem) :
    runWrites (w :: ws) els = (writeCell w.1 w.2 els).bind fun s => runWrites ws s := rfl

theorem runWrites_nil_eq (els : List Elem) : runWrites [] els = .normal els := rfl

theorem populate_eq (parseHTML : String → List Markup) (marked : String → String)
    (data : Report) (rb : RiskBreakdown) (st : Stats)
    (hrb : data.risk_breakdown = some rb) (hst : data.stats = some st) (els : List Elem) :
    populate parseHTML marked data els
      = (headWrites parseHTML marked data els).bind
          fun s => runWrites (tailWrites data rb st) s := by
  simp only [populate, headWrites, Completion.bind_assoc]
  unfold scoreLine countLine
  simp only [hrb, hst, tailWrites, runWrites_cons_eq, runWrites_nil_eq, Completion.bind_normal]

theorem tailWrites_selectors (data : Report) (rb : RiskBreakdown) (st : Stats) :
    (tailWrites data rb st).map (·.1) = selectorClasses.drop 2 := rfl

theorem tailWrites_key (data : Report) (rb : RiskBreakdown) (st : Stats) :
    ∀ w ∈ tailWrites data rb st, ∀ e,
      (w.2 e).classes = e.classes ∧ (w.2 e).origin = e.origin := by
  intro w hw e
  simp only [tailWrites, List.mem_cons, List.mem_singleton, List.not_mem_nil, or_false] at hw
  rcases hw with h | h | h | h | h | h | h | h | h | h | h <;> subst h <;> exact ⟨rfl, rfl⟩

theorem tailWrites_mem_selectors (data : Report) (rb : RiskBreakdown) (st : Stats) :
    ∀ w ∈ tailWrites data rb st,
      w.1 ∈ selectorClasses ∧ w.1 ≠ "report-content" ∧ w.1 ≠ "result-target" := by
  intro w hw
  simp only [tailWrites, List.mem_cons, List.mem_singleton, List.not_mem_nil, or_false] at hw
  rcases hw with h | h | h | h | h | h | h | h | h | h | h <;> subst h <;>
    simp [selectorClasses]

theorem tail_selectors_nodup : (selectorClasses.drop 2).Nodup := by decide

theorem isTemplateCell_key (c : String) (e e' : Elem) (h1 : e'.classes = e.classes)
    (h2 : e'.origin = e.origin) : isTemplateCell c e' = isTemplateCell c e := by
  simp [isTemplateCell, Elem.hasClass, h1, h2]

theorem complete_spec (cl : List (List String)) (h : completeClasses cl = true) :
    ∀ s ∈ selectorClasses, ∃ cs ∈ cl, cs.contains s = true := by
  intro s hs
  have := List.all_eq_true.mp h s hs
  exact List.any_eq_true.mp this

theorem separate_spec (cl : List (List String)) (h : separateClasses cl = true) :
    ∀ cs ∈ cl, ∀ s ∈ selectorClasses, ∀ t ∈ selectorClasses, s ≠ t →
      cs.contains s = true → cs.contains t = false := by
  intro cs hcs s hs t ht hne hcon
  have h1 := List.all_eq_true.mp (List.all_eq_true.mp (List.all_eq_true.mp h cs hcs) s hs) t ht
  simp only [Bool.or_eq_true, beq_iff_eq, Bool.not_eq_true', Bool.and_eq_false_imp] at h1
  rcases h1 with h1 | h1
  · exact absurd h1 hne
  · exact h1 hcon

theorem bodyLacks_spec (c : String) (body : List Markup) (h : bodyLacks c body = true) :
    ∀ cs ∈ body.map (·.classes), cs.contains c = false := by
  intro cs hcs
  obtain ⟨m, hm, rfl⟩ := List.mem_map.mp hcs
  have := List.all_eq_true.mp h m hm
  simpa using this

theorem instantiate_mem (o : Origin) (ms : List Markup) (e : Elem)
    (he : e ∈ instantiate o ms) :
    e.origin = o ∧ e.classes ∈ ms.map (·.classes) ∧ e.listeners = [] := by
  obtain ⟨m, hm, rfl⟩ := List.mem_map.mp he
  exact ⟨rfl, List.mem_map.mpr ⟨m, hm, rfl⟩, rfl⟩

theorem head_spec (parseHTML : String → List Markup) (marked : String → String)
    (data : Report) (tpl : List Markup) (hc : templateComplete tpl = true) :
    ∃ els2 a, headWrites parseHTML marked data (instantiate .template tpl) = .normal els2
      ∧ (∀ s ∈ selectorClasses, ∃ e ∈ els2, Elem.hasClass s e = true)
      ∧ (∀ e ∈ els2, (e.origin = .template → e.classes ∈ tpl.map (·.classes))
            ∧ (e.origin = .body →
                e.classes ∈ (bodyMarkup parseHTML marked data).map (·.classes))
            ∧ e.listeners = [])
      ∧ templateCell "report-content" els2
          = some (setHTML (marked (reportBody data.full_report_markdown)) a) := by
  have h0 : ∀ e ∈ instantiate .template tpl,
      e.origin = .template ∧ e.classes ∈ tpl.map (·.classes) ∧ e.listeners = [] :=
    fun e he => instantiate_mem .template tpl e he
  have hp0 : ∀ s ∈ selectorClasses, ∃ e ∈ instantiate .template tpl,
      Elem.hasClass s e = true := by
    intro s hs
    obtain ⟨cs, hcs, hcon⟩ := complete_spec _ hc s hs
    obtain ⟨m, hm, rfl⟩ := List.mem_map.mp hcs
    exact ⟨_, List.mem_map.mpr ⟨m, hm, rfl⟩, hcon⟩
  obtain ⟨els1, hs1⟩ := updateFirst_isSome (Elem.hasClass "result-target")
    (setText data.target) _ (hp0 "result-target" (by decide))
  have h1 : ∀ e ∈ els1,
      e.origin = .template ∧ e.classes ∈ tpl.map (·.classes) ∧ e.listeners = [] :=
    updateFirst_forall
      (fun e : Elem =>
        e.origin = .template ∧ e.classes ∈ tpl.map (fun m : Markup => m.classes)
          ∧ e.listeners = [])
      (Elem.hasClass "result-target") (setText data.target)
      (fun a ha => ⟨ha.1, ha.2.1, ha.2.2⟩) _ els1 hs1 h0
  have hm1 : els1.map (·.classes) = (instantiate .template tpl).map (·.classes) :=
    updateFirst_map (fun e : Elem => e.classes) (Elem.hasClass "result-target")
      (setText data.target) (fun _ => rfl) _ els1 hs1
  have hp1 : ∀ s ∈ selectorClasses, ∃ e ∈ els1, Elem.hasClass s e = true := by
    intro s hs
    obtain ⟨e0, he0, hcon⟩ := hp0 s hs
    have : e0.classes ∈ els1.map (·.classes) := by
      rw [hm1]; exact List.mem_map.mpr ⟨e0, he0, rfl⟩
    obtain ⟨e1, he1, heq⟩ := List.mem_map.mp this
    exact ⟨e1, he1, by rw [hasClass_of_classes s e0 e1 heq]; exact hcon⟩
  obtain ⟨els2, hs2⟩ := updateFirstInsert_isSome (Elem.hasClass "report-content")
    (setHTML (marked (reportBody data.full_report_markdown)))
    (instantiate .body (parseHTML (marked (reportBody data.full_report_markdown)))) els1
    (hp1 "report-content" (by decide))
  obtain ⟨pre, a, post, hl1, hpre, ha, hl2⟩ := updateFirstInsert_spec _ _ _ _ _ hs2
  have ha1 : a ∈ els1 := by rw [hl1]; simp
  refine ⟨els2, a, ?_, ?_, ?_, ?_⟩
  · simp only [headWrites, writeCell, hs1, Completion.bind, writeHTML, hs2]
  · intro s hs
    obtain ⟨e, he, hcon⟩ := hp1 s hs
    rw [hl1] at he
    rw [hl2]
    rcases List.mem_append.mp he with h | h
    · exact ⟨e, List.mem_append_left _ h, hcon⟩
    · rcases List.mem_cons.mp h with rfl | h'
      · exact ⟨_, List.mem_append_right _ (List.mem_cons_self _ _), hcon⟩
      · exact ⟨e, List.mem_append_right _
          (List.mem_cons_of_mem _ (List.mem_append_right _ h')), hcon⟩
  · intro e he
    rw [hl2] at he
    have hold : ∀ x ∈ els1, (x.origin = .template → x.classes ∈ tpl.map (·.classes))
        ∧ (x.origin = .body →
            x.classes ∈ (bodyMarkup parseHTML marked data).map (·.classes))
        ∧ x.listeners = [] := by
      intro x hx
      obtain ⟨ho, hcl, hli⟩ := h1 x hx
      exact ⟨fun _ => hcl, (fun hb => by rw [ho] at hb; cases hb), hli⟩
    rcases List.mem_append.mp he with h | h
    · exact hold e (by rw [hl1]; exact List.mem_append_left _ h)
    · rcases List.mem_cons.mp h with rfl | h'
      · exact hold a ha1
      · rcases List.mem_append.mp h' with h'' | h''
        · obtain ⟨ho, hcl, hli⟩ := instantiate_mem .body _ e h''
          exact ⟨(fun ht => by rw [ho] at ht; cases ht), fun _ => hcl, hli⟩
        · exact hold e (by rw [hl1]; exact List.mem_append_right _ (List.mem_cons_of_mem _ h''))
  · rw [hl2]
    refine find_append_hit _ pre _ _ ?_ ?_
    · intro x hx
      simp [isTemplateCell, hpre x hx]
    · have hoa := (h1 a ha1).1
      have hca : Elem.hasClass "report-content" a = true := ha
      simp only [isTemplateCell, setHTML, hoa, beq_self_eq_true, Bool.true_and]
      exact hca

theorem populate_spec (parseHTML : String → List Markup) (marked : String → String)
    (data : Report) (rb : RiskBreakdown) (st : Stats)
    (hrb : data.risk_breakdown = some rb) (hst : data.stats = some st) (tpl : List Markup)
    (hc : templateComplete tpl = true) :
    ∃ els2 els' a,
      runWrites (tailWrites data rb st) els2 = .normal els'
      ∧ populate parseHTML marked data (instantiate .template tpl) = .normal els'
      ∧ (∀ e ∈ els2, (e.origin = .template → e.classes ∈ tpl.map (·.classes))
            ∧ (e.origin = .body →
                e.classes ∈ (bodyMarkup parseHTML marked data).map (·.classes))
            ∧ e.listeners = [])
      ∧ templateCell "report-content" els2
          = some (setHTML (marked (reportBody data.full_report_markdown)) a) := by
  obtain ⟨els2, a, hhead, hpres, hinv, hbody⟩ := head_spec parseHTML marked data tpl hc
  obtain ⟨els', htail⟩ := runWrites_ok (tailWrites data rb st)
    (fun w hw e => (tailWrites_key data rb st w hw e).1) els2
    (fun w hw => by
      obtain ⟨e, he, hcon⟩ := hpres w.1 (tailWrites_mem_selectors data rb st w hw).1
      exact ⟨e.classes, List.mem_map.mpr ⟨e, he, rfl⟩, hcon⟩)
  refine ⟨els2, els', a, htail, ?_, hinv, hbody⟩
  rw [populate_eq parseHTML marked data rb st hrb hst, hhead]
  simp only [Completion.bind, htail]

theorem isTemplateCell_eq_hasClass (parseHTML : String → List Markup)
    (marked : String → String) (data : Report) (tpl : List Markup) (c : String)
    (hb : bodyLacks c (bodyMarkup parseHTML marked data) = true) (e : Elem)
    (hinv : (e.origin = .template → e.classes ∈ tpl.map (·.classes))
        ∧ (e.origin = .body → e.classes ∈ (bodyMarkup parseHTML marked data).map (·.classes))
        ∧ e.listeners = []) :
    isTemplateCell c e = Elem.hasClass c e := by
  cases ho : e.origin with
  | template => simp [isTemplateCell, ho]
  | body =>
    have := bodyLacks_spec c _ hb e.classes (hinv.2.1 ho)
    simp only [isTemplateCell, ho, Elem.hasClass, this]
    rfl

theorem isTemplateCell_other (tpl : List Markup) (hs : templateSeparate tpl = true)
    (body : List (List String)) (c w : String) (hc : c ∈ selectorClasses)
    (hw : w ∈ selectorClasses) (hne : w ≠ c) (e : Elem)
    (hinv : (e.origin = .template → e.classes ∈ tpl.map (·.classes))
        ∧ (e.origin = .body → e.classes ∈ body) ∧ e.listeners = [])
    (hcon : Elem.hasClass w e = true) : isTemplateCell c e = false := by
  cases ho : e.origin with
  | template =>
    have := separate_spec _ hs e.classes (hinv.1 ho) w hw c hc hne hcon
    simp only [isTemplateCell, ho, Elem.hasClass, this, Bool.and_false]
  | body => simp [isTemplateCell, ho]

theorem tail_cell (parseHTML : String → List Markup) (marked : String → String)
    (data : Report) (rb : RiskBreakdown) (st : Stats) (tpl : List Markup)
    (hs : templateSeparate tpl = true) (c : String) (f : Elem → Elem)
    (hmem : (c, f) ∈ tailWrites data rb st)
    (hb : bodyLacks c (bodyMarkup parseHTML marked data) = true) (els2 els' : List Elem)
    (hinv : ∀ e ∈ els2, (e.origin = .template → e.classes ∈ tpl.map (·.classes))
        ∧ (e.origin = .body → e.classes ∈ (bodyMarkup parseHTML marked data).map (·.classes))
        ∧ e.listeners = [])
    (h : runWrites (tailWrites data rb st) els2 = .normal els') :
    ∃ e, templateCell c els' = some (f e) := by
  obtain ⟨pre, post, hsplit⟩ := List.append_of_mem hmem
  have hkey := tailWrites_key data rb st
  have hsel := tailWrites_selectors data rb st
  have hms := tailWrites_mem_selectors data rb st
  rw [hsplit] at h hkey hsel hms
  have hnd : (pre.map (·.1) ++ c :: post.map (·.1)).Nodup := by
    have := tail_selectors_nodup
    rw [← hsel] at this
    simpa using this
  have hcpost : c ∉ post.map (·.1) :=
    (List.nodup_cons.mp (List.nodup_append.mp hnd).2.1).1
  have hcin : c ∈ selectorClasses :=
    (hms (c, f) (List.mem_append_right _ (List.mem_cons_self _ _))).1
  obtain ⟨e, _, he⟩ := runWrites_cell (isTemplateCell c) (fun _ => True) c f pre post els2 els'
    (fun w hw e => (hkey w hw e).1)
    (fun w hw e => isTemplateCell_key c e (w.2 e) (hkey w hw e).1 (hkey w hw e).2)
    (fun e he => isTemplateCell_eq_hasClass parseHTML marked data tpl c hb e (hinv e he))
    (fun e he w hw hcon => by
      have hw1 : w.1 ∈ post.map (·.1) := List.mem_map.mpr ⟨w, hw, rfl⟩
      have hwin := (hms w (List.mem_append_right _ (List.mem_cons_of_mem _ hw))).1
      have hne : w.1 ≠ c := fun heq => hcpost (heq ▸ hw1)
      exact isTemplateCell_other tpl hs _ c w.1 hcin hwin hne e (hinv e he) hcon)
    (fun _ _ => trivial) (fun _ _ _ _ => trivial) h
  exact ⟨e, he⟩

theorem tail_body_frame (data : Report) (rb : RiskBreakdown) (st : Stats) (tpl : List Markup)
    (hs : templateSeparate tpl = true) (body : List (List String)) (els2 els' : List Elem)
    (hinv : ∀ e ∈ els2, (e.origin = .template → e.classes ∈ tpl.map (·.classes))
        ∧ (e.origin = .body → e.classes ∈ body) ∧ e.listeners = [])
    (h : runWrites (tailWrites data rb st) els2 = .normal els') :
    templateCell "report-content" els' = templateCell "report-content" els2 := by
  have hkey := tailWrites_key data rb st
  have hms := tailWrites_mem_selectors data rb st
  exact runWrites_frame (isTemplateCell "report-content") (tailWrites data rb st)
    (fun w hw e => (hkey w hw e).1)
    (fun w hw e => isTemplateCell_key _ e (w.2 e) (hkey w hw e).1 (hkey w hw e).2)
    els2 els'
    (fun e he w hw hcon =>
      isTemplateCell_other tpl hs body "report-content" w.1 (by decide) (hms w hw).1
        (hms w hw).2.1 e (hinv e he) hcon)
    h

theorem tail_download (parseHTML : String → List Markup) (marked : String → String)
    (data : Report) (rb : RiskBreakdown) (st : Stats) (tpl : List Markup)
    (hb : bodyLacks "download-pdf" (bodyMarkup parseHTML marked data) = true)
    (els2 els' : List Elem)
    (hinv : ∀ e ∈ els2, (e.origin = .template → e.classes ∈ tpl.map (·.classes))
        ∧ (e.origin = .body → e.classes ∈ (bodyMarkup parseHTML marked data).map (·.classes))
        ∧ e.listeners = [])
    (h : runWrites (tailWrites data rb st) els2 = .normal els') :
    ∃ e, templateCell "download-pdf" els' = some e
      ∧ e.listeners = [.downloadPdf data.report_id] := by
  have hsplit : tailWrites data rb st
      = (tailWrites data rb st).take 10
        ++ ("download-pdf", addListener (.downloadPdf data.report_id)) :: [] := rfl
  have hkey := tailWrites_key data rb st
  rw [hsplit] at h hkey
  obtain ⟨e, hl, he⟩ := runWrites_cell (isTemplateCell "download-pdf")
    (fun e => e.listeners = []) "download-pdf"
    (addListener (.downloadPdf data.report_id)) ((tailWrites data rb st).take 10) []
    els2 els'
    (fun w hw e => (hkey w hw e).1)
    (fun w hw e => isTemplateCell_key _ e (w.2 e) (hkey w hw e).1 (hkey w hw e).2)
    (fun e he =>
      isTemplateCell_eq_hasClass parseHTML marked data tpl "download-pdf" hb e (hinv e he))
    (fun _ _ w hw => by cases hw)
    (fun e he => (hinv e he).2.2)
    (fun w hw e he => by
      simp only [tailWrites, List.take, List.mem_cons, List.mem_singleton, List.not_mem_nil,
        or_false] at hw
      rcases hw with h | h | h | h | h | h | h | h | h | h <;> subst h <;> exact he)
    h
  exact ⟨_, he, by simp [addListener, hl]⟩

theorem displayResults_normal (parseHTML : String → List Markup) (marked : String → String)
    (tpl : List Markup) (data : Report) (c : Container) (els' : List Elem)
    (h : populate parseHTML marked data (instantiate .template tpl) = .normal els') :
    displayResults parseHTML marked (some tpl) data (some c)
      = .normal (some { c with content := els' }) := by
  simp only [displayResults, h]

theorem populate_ok (parseHTML : String → List Markup) (marked : String → String)
    (data : Report) (rb : RiskBreakdown) (st : Stats)
    (hrb : data.risk_breakdown = some rb) (hst : data.stats = some st) (tpl : List Markup)
    (hc : templateComplete tpl = true) :
    ∃ els', populate parseHTML marked data (instantiate .template tpl) = .normal els' := by
  obtain ⟨_, els', _, _, h, _⟩ := populate_spec parseHTML marked data rb st hrb hst tpl hc
  exact ⟨els', h⟩

theorem cellContent_of_cell (cls : String) (c : Container) (e : Elem)
    (h : templateCell cls c.content = some e) :
    cellContent cls (some c) = some e.content := by
  simp [cellContent, h]

theorem render_spec (parseHTML : String → List Markup) (marked : String → String)
    (tpl : List Markup) (data : Report) (rb : RiskBreakdown) (st : Stats) (c : Container)
    (hc : templateComplete tpl = true) (hs : templateSeparate tpl = true)
    (hrb : data.risk_breakdown = some rb) (hst : data.stats = some st) :
    ∃ c', displayResults parseHTML marked (some tpl) data (some c) = .normal (some c')
      ∧ cellContent "report-content" (some c')
          = some (.html (marked (reportBody data.full_report_markdown)))
      ∧ (∀ p ∈ scoreCells, bodyLacks p.1 (bodyMarkup parseHTML marked data) = true →
          cellContent p.1 (some c') = some (.text ((p.2 rb).or (.str "--")).toText))
      ∧ (∀ p ∈ countCells, bodyLacks p.1 (bodyMarkup parseHTML marked data) = true →
          cellContent p.1 (some c')
            = some (.text ((p.2 st).or (.num JSNum.zero)).toText)) := by
  obtain ⟨els2, els', a, htail, hpop, hinv, hbody⟩ :=
    populate_spec parseHTML marked data rb st hrb hst tpl hc
  refine ⟨{ c with content := els' }, displayResults_normal parseHTML marked tpl data c els' hpop,
    ?_, ?_, ?_⟩
  · have hf := tail_body_frame data rb st tpl hs _ els2 els' hinv htail
    rw [cellContent_of_cell "report-content" { c with content := els' } _ (by rw [hf]; exact hbody)]
    rfl
  · intro p hp hb
    have hmem : (p.1, setText ((p.2 rb).or (.str "--"))) ∈ tailWrites data rb st := by
      simp only [scoreCells, List.mem_cons, List.mem_singleton, List.not_mem_nil, or_false] at hp
      rcases hp with h | h | h | h | h | h <;> subst h <;> simp [tailWrites]
    obtain ⟨e, he⟩ := tail_cell parseHTML marked data rb st tpl hs _ _ hmem hb els2 els' hinv htail
    rw [cellContent_of_cell p.1 { c with content := els' } _ he]
    rfl
  · intro p hp hb
    have hmem : (p.1, setText ((p.2 st).or (.num JSNum.zero))) ∈ tailWrites data rb st := by
      simp only [countCells, List.mem_cons, List.mem_singleton, List.not_mem_nil, or_false] at hp
      rcases hp with h | h | h | h <;> subst h <;> simp [tailWrites]
    obtain ⟨e, he⟩ := tail_cell parseHTML marked data rb st tpl hs _ _ hmem hb els2 els' hinv htail
    rw [cellContent_of_cell p.1 { c with content := els' } _ he]
    rfl

/-- C3 (amended): on a template with a separate element for each selector, for
every response object that has its `risk_breakdown` and `stats` mappings,
whichever of `full_report_markdown`, `report_id` or the keys of the two mappings
are missing, `displayResults` completes the render and the template's cells show
the display defaults for what is missing: the body cell holds the rendering of
"No report generated" when `full_report_markdown` is missing (and the rendering
of the markdown when it is present and non-empty), a score cell shows "--" when
its key is missing, a count cell shows "0" when its key is missing; the last two
for a cell whose class no element of the rendered body carries. -/
theorem displayResults_substitutes_defaults (parseHTML : String → List Markup)
    (marked : String → String) (tpl : List Markup) (data : Report) (rb : RiskBreakdown)
    (st : Stats) (c : Container)
    (hc : templateComplete tpl = true) (hs : templateSeparate tpl = true)
    (hrb : data.risk_breakdown = some rb) (hst : data.stats = some st) :
    ∃ c', displayResults parseHTML marked (some tpl) data (some c) = .normal (some c')
      ∧ (data.full_report_markdown = none →
          cellContent "report-content" (some c')
            = some (.html (marked "No report generated")))
      ∧ (∀ s, data.full_report_markdown = some s → s ≠ "" →
          cellContent "report-content" (some c') = some (.html (marked s)))
      ∧ (∀ p ∈ scoreCells, p.2 rb = .undefined →
          bodyLacks p.1 (bodyMarkup parseHTML marked data) = true →
          cellContent p.1 (some c') = some (.text "--"))
      ∧ (∀ p ∈ countCells, p.2 st = .undefined →
          bodyLacks p.1 (bodyMarkup parseHTML marked data) = true →
          cellContent p.1 (some c') = some (.text "0")) := by
  obtain ⟨c', hnorm, hbody, hscore, hcount⟩ :=
    render_spec parseHTML marked tpl data rb st c hc hs hrb hst
  refine ⟨c', hnorm, ?_, ?_, ?_, ?_⟩
  · intro hmd
    rw [hbody, hmd]; rfl
  · intro s hmd hne
    rw [hbody, hmd]
    simp [reportBody, hne]
  · intro p hp hu hb
    rw [hscore p hp hb, hu]; rfl
  · intro p hp hu hb
    rw [hcount p hp hb, hu]; rfl

theorem displayResults_substitutes_defaults_witness :
    ∃ c', displayResults exParse id (some exTemplate) { exReport with full_report_markdown := none }
          (some (exContainer "results-new-research")) = .normal (some c')
      ∧ cellContent "report-content" (some c') = some (.html "No report generated")
      ∧ cellContent "score-association" (some c') = some (.text "--")
      ∧ cellContent "count-events" (some c') = some (.text "0") := by
  obtain ⟨c', h, hbody, _, hscore, hcount⟩ :=
    displayResults_substitutes_defaults exParse id exTemplate
      { exReport with full_report_markdown := none } exRisk exStats
      (exContainer "results-new-research") (by decide) (by decide) rfl rfl
  exact ⟨c', h, hbody rfl,
    hscore ("score-association", (·.association)) (by simp [scoreCells]) rfl (by decide),
    hcount ("count-events", (·.events)) (by simp [countCells]) rfl (by decide)⟩

/-- C3 (as stated) fails: a response without the `risk_breakdown` mapping, or
without the `stats` mapping, makes `displayResults` throw on the complete
template; and when the report body is markup with an element of class
`score-association`, the default "--" for the missing association key goes to
that element and the template's cell keeps its empty text. -/
theorem displayResults_throws_without_mapping :
    (displayResults exParse id (some exTemplate) { exReport with risk_breakdown := none }
        (some (exContainer "results-new-research"))).isNormal = false
    ∧ (displayResults exParse id (some exTemplate) { exReport with stats := none }
        (some (exContainer "results-new-research"))).isNormal = false
    ∧ exRisk.association = .undefined
    ∧ cellContent "score-association"
        (displayResults exParse id (some exTemplate) injectReport
          (some (exContainer "results-new-research"))).state = some (.text "")
    ∧ (elementsOf "score-association"
        (displayResults exParse id (some exTemplate) injectReport
          (some (exContainer "results-new-research"))).state).map (fun e => (e.origin, e.content))
        = [(.body, .text "--"), (.template, .text "")] := by
  decide

/-- C4 (amended): on a template with a separate element for each selector, for
every report that has its `risk_breakdown` and `stats` mappings and each of the
six keys of `risk_breakdown` such that no element of the rendered report body
carries the class `score-<key>`, the template's cell `.score-<key>` shows the
key's score when the key is present with a truthy score (a non-zero number, a
non-empty text), and shows "--" when the key is missing. -/
theorem displayResults_score_cells (parseHTML : String → List Markup)
    (marked : String → String) (tpl : List Markup) (data : Report) (rb : RiskBreakdown)
    (st : Stats) (c : Container)
    (hc : templateComplete tpl = true) (hs : templateSeparate tpl = true)
    (hrb : data.risk_breakdown = some rb) (hst : data.stats = some st) :
    ∃ c', displayResults parseHTML marked (some tpl) data (some c) = .normal (some c')
      ∧ ∀ p ∈ scoreCells, bodyLacks p.1 (bodyMarkup parseHTML marked data) = true →
          ((p.2 rb).truthy = true → cellContent p.1 (some c') = some (.text (p.2 rb).toText))
          ∧ (p.2 rb = .undefined → cellContent p.1 (some c') = some (.text "--")) := by
  obtain ⟨c', hnorm, _, hscore, _⟩ :=
    render_spec parseHTML marked tpl data rb st c hc hs hrb hst
  refine ⟨c', hnorm, fun p hp hb => ⟨fun ht => ?_, fun hu => ?_⟩⟩
  · rw [hscore p hp hb]; simp [JSVal.or, ht]
  · rw [hscore p hp hb, hu]; rfl

theorem displayResults_score_cells_witness :
    ∃ c', displayResults exParse id (some exTemplate) exReport
          (some (exContainer "results-new-research")) = .normal (some c')
      ∧ cellContent "score-financial" (some c') = some (.text "3")
      ∧ cellContent "score-reputational" (some c') = some (.text "high")
      ∧ cellContent "score-integrity" (some c') = some (.text "7.5")
      ∧ cellContent "score-association" (some c') = some (.text "--") := by
  obtain ⟨c', h, hcells⟩ :=
    displayResults_score_cells exParse id exTemplate exReport exRisk exStats
      (exContainer "results-new-research") (by decide) (by decide) rfl rfl
  exact ⟨c', h,
    (hcells ("score-financial", (·.financial)) (by simp [scoreCells]) (by decide)).1 rfl,
    (hcells ("score-reputational", (·.reputational)) (by simp [scoreCells]) (by decide)).1 rfl,
    (hcells ("score-integrity", (·.integrity)) (by simp [scoreCells]) (by decide)).1 rfl,
    (hcells ("score-association", (·.association)) (by simp [scoreCells]) (by decide)).2 rfl⟩

/-- C4 (as stated) fails: a report whose `risk_breakdown.legal` is present with
the numeric score 0 renders "--", not "0", in the legal score cell; and when the
report body is markup with an element of class `score-financial`, the financial
score 3 goes to that element and the template's cell keeps its empty text. -/
theorem score_zero_renders_placeholder :
    exRisk.legal = .num JSNum.zero
    ∧ cellContent "score-legal"
        (displayResults exParse id (some exTemplate) exReport
          (some (exContainer "results-new-research"))).state = some (.text "--")
    ∧ cellContent "score-legal"
        (displayResults exParse id (some exTemplate) exReport
          (some (exContainer "results-new-research"))).state
        ≠ some (.text (JSVal.num JSNum.zero).toText)
    ∧ cellContent "score-financial"
        (displayResults exParse id (some exTemplate) injectReport
          (some (exContainer "results-new-research"))).state = some (.text "")
    ∧ (elementsOf "score-financial"
        (displayResults exParse id (some exTemplate) injectReport
          (some (exContainer "results-new-research"))).state).map (fun e => (e.origin, e.content))
        = [(.body, .text "3"), (.template, .text "")] := by
  decide

/-- C5 (amended): on a template with a separate element for each selector, for
every report that has its `risk_breakdown` and `stats` mappings, `displayResults`
writes the counts sources, people, organizations and events into the template's
elements selected by `.count-sources`, `.count-people`, `.count-orgs` and
`.count-events` respectively, for each of these classes that no element of the
rendered report body carries: the cell shows the count when the key is present
with a number (the number's own text, "0" for zero) and "0" when the key is
missing. -/
theorem displayResults_count_cells (parseHTML : String → List Markup)
    (marked : String → String) (tpl : List Markup) (data : Report) (rb : RiskBreakdown)
    (st : Stats) (c : Container)
    (hc : templateComplete tpl = true) (hs : templateSeparate tpl = true)
    (hrb : data.risk_breakdown = some rb) (hst : data.stats = some st) :
    ∃ c', displayResults parseHTML marked (some tpl) data (some c) = .normal (some c')
      ∧ ∀ p ∈ countCells, bodyLacks p.1 (bodyMarkup parseHTML marked data) = true →
          (∀ x : JSNum, p.2 st = .num x → (x.truthy = true ∨ x = JSNum.zero) →
            cellContent p.1 (some c') = some (.text x.text))
          ∧ (p.2 st = .undefined → cellContent p.1 (some c') = some (.text "0")) := by
  obtain ⟨c', hnorm, _, _, hcount⟩ :=
    render_spec parseHTML marked tpl data rb st c hc hs hrb hst
  refine ⟨c', hnorm, fun p hp hb => ⟨fun x hx hw => ?_, fun hu => ?_⟩⟩
  · rw [hcount p hp hb, hx]
    rcases hw with ht | hz
    · simp [JSVal.or, JSVal.truthy, ht, JSVal.toText, JSVal.toStr]
    · subst hz; rfl
  · rw [hcount p hp hb, hu]; rfl

theorem displayResults_count_cells_witness :
    ∃ c', displayResults exParse id (some exTemplate) exReport
          (some (exContainer "results-new-research")) = .normal (some c')
      ∧ cellContent "count-sources" (some c') = some (.text "1e+21")
      ∧ cellContent "count-people" (some c') = some (.text "0")
      ∧ cellContent "count-orgs" (some c') = some (.text "7")
      ∧ cellContent "count-events" (some c') = some (.text "0") := by
  obtain ⟨c', h, hcells⟩ :=
    displayResults_count_cells exParse id exTemplate exReport exRisk exStats
      (exContainer "results-new-research") (by decide) (by decide) rfl rfl
  exact ⟨c', h,
    (hcells ("count-sources", (·.sources)) (by simp [countCells]) (by decide)).1 _ rfl
      (Or.inl rfl),
    (hcells ("count-people", (·.people)) (by simp [countCells]) (by decide)).1 _ rfl
      (Or.inr rfl),
    (hcells ("count-orgs", (·.organizations)) (by simp [countCells]) (by decide)).1 _ rfl
      (Or.inl rfl),
    (hcells ("count-events", (·.events)) (by simp [countCells]) (by decide)).2 rfl⟩

/-- C5 (as stated) fails: the organizations count (7 here) is not written into
the element selected by `.count-organizations`.  On the template of the
specification the render throws at the `.count-orgs` line and the element keeps
its text; on a template with both elements the render completes, the count is in
`.count-orgs` and `.count-organizations` keeps its text.  And when the report
body is markup with an element of class `count-orgs`, the count goes to that
element and the template's `.count-orgs` cell keeps its empty text. -/
theorem organizations_count_not_in_count_organizations :
    (displayResults exParse id (some specTemplate) exReport
        (some (exContainer "results-new-research"))).isNormal = false
    ∧ cellContent "count-organizations"
        (displayResults exParse id (some specTemplate) exReport
          (some (exContainer "results-new-research"))).state = some (.text "")
    ∧ (displayResults exParse id (some bothTemplate) exReport
        (some (exContainer "results-new-research"))).isNormal = true
    ∧ cellContent "count-organizations"
        (displayResults exParse id (some bothTemplate) exReport
          (some (exContainer "results-new-research"))).state = some (.text "")
    ∧ cellContent "count-orgs"
        (displayResults exParse id (some bothTemplate) exReport
          (some (exContainer "results-new-research"))).state = some (.text "7")
    ∧ cellContent "count-orgs"
        (displayResults exParse id (some exTemplate) injectReport
          (some (exContainer "results-new-research"))).state = some (.text "") := by
  decide

/-! ## Theorems: the download control -/

theorem render_download (parseHTML : String → List Markup) (marked : String → String)
    (tpl : List Markup) (data : Report) (rb : RiskBreakdown) (st : Stats) (c : Container)
    (hc : templateComplete tpl = true)
    (hrb : data.risk_breakdown = some rb) (hst : data.stats = some st)
    (hb : bodyLacks "download-pdf" (bodyMarkup parseHTML marked data) = true) :
    ∃ c' e, displayResults parseHTML marked (some tpl) data (some c) = .normal (some c')
      ∧ templateCell "download-pdf" c'.content = some e
      ∧ e.listeners = [.downloadPdf data.report_id] := by
  obtain ⟨els2, els', a, htail, hpop, hinv, _⟩ :=
    populate_spec parseHTML marked data rb st hrb hst tpl hc
  obtain ⟨e, he, hl⟩ := tail_download parseHTML marked data rb st tpl hb els2 els' hinv htail
  exact ⟨{ c with content := els' }, e,
    displayResults_normal parseHTML marked tpl data c els' hpop, he, hl⟩

/-- C7 (amended): for every report rendered by `displayResults` (one that has its
`risk_breakdown` and `stats` mappings, on a template with an element for each
selector) whose rendered body has no element of class `download-pdf`, a click on
the container's download control navigates to "/download_pdf/" followed by the
report's `report_id` when the report has a truthy `report_id` (a non-empty
string, a non-zero number), and when `report_id` is absent it shows one alert and
leaves the location unchanged. -/
theorem download_click (parseHTML : String → List Markup) (marked : String → String)
    (tpl : List Markup) (data : Report) (rb : RiskBreakdown) (st : Stats) (c : Container)
    (hc : templateComplete tpl = true)
    (hrb : data.risk_breakdown = some rb) (hst : data.stats = some st)
    (hb : bodyLacks "download-pdf" (bodyMarkup parseHTML marked data) = true) :
    ∃ c', displayResults parseHTML marked (some tpl) data (some c) = .normal (some c')
      ∧ ∀ pg : Page,
          (data.report_id.truthy = true →
            clickDownload (some c') pg
              = { pg with location := "/download_pdf/" ++ data.report_id.toStr })
          ∧ (data.report_id = .undefined →
            clickDownload (some c') pg
              = { pg with alerts := pg.alerts
                    ++ ["Report ID not found. Please regenerate the report."] }) := by
  obtain ⟨c', e, hnorm, he, hl⟩ :=
    render_download parseHTML marked tpl data rb st c hc hrb hst hb
  refine ⟨c', hnorm, fun pg => ⟨fun ht => ?_, fun hu => ?_⟩⟩
  · simp [clickDownload, he, click, hl, Listener.run, downloadHandler, ht]
  · simp [clickDownload, he, click, hl, Listener.run, downloadHandler, hu, JSVal.truthy]

theorem download_click_witness :
    ∃ c', displayResults exParse id (some exTemplate) exReport
          (some (exContainer "results-new-research")) = .normal (some c')
      ∧ clickDownload (some c') exPage = { exPage with location := "/download_pdf/r42" } := by
  obtain ⟨c', h, hclick⟩ :=
    download_click exParse id exTemplate exReport exRisk exStats
      (exContainer "results-new-research") (by decide) rfl rfl (by decide)
  exact ⟨c', h, (hclick exPage).1 rfl⟩

/-- C7 (as stated) fails: for a report that has the `report_id` 0, a click on the
download control shows the alert and leaves the location as it was, instead of
navigating to "/download_pdf/0"; and when the report body is markup with an
element of class `download-pdf`, the listener goes to that element and a click on
the template's download control does nothing, although the report has the
`report_id` "r42". -/
theorem download_click_zero_id :
    (clickDownload
        (displayResults exParse id (some exTemplate) { exReport with report_id := .num JSNum.zero }
          (some (exContainer "results-new-research"))).state exPage).location = "/"
    ∧ (clickDownload
        (displayResults exParse id (some exTemplate) { exReport with report_id := .num JSNum.zero }
          (some (exContainer "results-new-research"))).state exPage).location
        ≠ "/download_pdf/" ++ (JSVal.num JSNum.zero).toStr
    ∧ (clickDownload
        (displayResults exParse id (some exTemplate) { exReport with report_id := .num JSNum.zero }
          (some (exContainer "results-new-research"))).state exPage).alerts
        = ["Report ID not found. Please regenerate the report."]
    ∧ injectReport.report_id = .str "r42"
    ∧ clickDownload
        (displayResults exParse id (some exTemplate) injectReport
          (some (exContainer "results-new-research"))).state exPage = exPage := by
  decide

/-! ## Theorems: `runResearch` -/

theorem find_ref {α : Type} (p : α → Bool) (l : List α) (a : α) (h : l.find? p = some a) :
    p a = true ∧ a ∈ l :=
  ⟨List.find?_some h, List.mem_of_find?_eq_some h⟩

theorem getControl_putControl (pg : Page) (b0 b : SubmitBtn) (h : getControl pg b.ref = some b0) :
    getControl (putControl pg b) b.ref = some b := by
  obtain ⟨hp, hm⟩ := find_ref _ _ _ h
  obtain ⟨l', hl'⟩ := updateFirst_isSome (fun x : SubmitBtn => x.ref == b.ref) (fun _ => b)
    pg.controls ⟨b0, hm, hp⟩
  obtain ⟨a, _, _, h2⟩ := updateFirst_find_same (fun x : SubmitBtn => x.ref == b.ref)
    (fun _ => b) (fun _ _ => by simp) pg.controls l' hl'
  simp only [getControl, putControl, hl', Option.getD_some]
  exact h2

theorem getElementById_putContainer_other (pg : Page) (cid id : String) (c : Container)
    (hc : c.id = cid) (hne : id ≠ cid) :
    getElementById (putContainer pg cid c) id = getElementById pg id := by
  simp only [getElementById, putContainer]
  cases hu : updateFirst (fun x : Container => x.id == cid) (fun _ => c) pg.containers with
  | none => rfl
  | some l' =>
    simp only [Option.getD_some]
    refine updateFirst_find_other _ (fun x : Container => x.id == id) _ pg.containers l' hu ?_
    intro a _ ha
    have ha' : a.id = cid := by simpa using ha
    constructor
    · simp only [beq_eq_false_iff_ne, ne_eq]
      rw [ha']; exact fun h => hne h.symm
    · simp only [beq_eq_false_iff_ne, ne_eq]
      rw [hc]; exact fun h => hne h.symm

theorem getElementById_putContainer_same (pg : Page) (cid : String) (c0 c : Container)
    (h0 : getElementById pg cid = some c0) (hc : c.id = cid) :
    getElementById (putContainer pg cid c) cid = some c := by
  obtain ⟨hp, hm⟩ := find_ref _ _ _ h0
  obtain ⟨l', hl'⟩ := updateFirst_isSome (fun x : Container => x.id == cid) (fun _ => c)
    pg.containers ⟨c0, hm, hp⟩
  obtain ⟨a, _, _, h2⟩ := updateFirst_find_same (fun x : Container => x.id == cid)
    (fun _ => c) (fun _ _ => by simp [hc]) pg.containers l' hl'
  simp only [getElementById, putContainer, hl', Option.getD_some]
  exact h2

theorem getElementById_id (pg : Page) (cid : String) (c : Container)
    (h : getElementById pg cid = some c) : c.id = cid := by
  have := (find_ref _ _ _ h).1
  simpa using this

theorem displayResults_state_id (parseHTML : String → List Markup)
    (marked : String → String) (t : Option (List Markup))
    (data : Report) (c0 : Container) (c : Container)
    (h : (displayResults parseHTML marked t data (some c0)).state = some c) : c.id = c0.id := by
  unfold displayResults at h
  cases t with
  | none => simp only [Completion.state, Option.some.injEq] at h; rw [← h]
  | some tpl =>
    simp only at h
    cases hp : populate parseHTML marked data (instantiate .template tpl) with
    | normal els => rw [hp] at h; simp only [Completion.state, Option.some.injEq] at h; rw [← h]
    | throw m els => rw [hp] at h; simp only [Completion.state, Option.some.injEq] at h; rw [← h]

theorem displayResults_none (parseHTML : String → List Markup)
    (marked : String → String) (t : Option (List Markup))
    (data : Report) : (displayResults parseHTML marked t data none).state = none := by
  unfold displayResults
  cases t <;> rfl

theorem thenHandler_frame (parseHTML : String → List Markup)
    (marked : String → String) (cid : String) (r : Report) (pg : Page)
    (id : String) (hne : id ≠ cid) :
    getElementById (thenHandler parseHTML marked cid r pg).state id = getElementById pg id := by
  unfold thenHandler
  split
  · rfl
  · cases hg : getElementById pg cid with
    | none =>
      have hn := displayResults_none parseHTML marked pg.template r
      cases hd : displayResults parseHTML marked pg.template r none with
      | normal s => rw [hd] at hn; simp only [Completion.state] at hn; subst hn; rfl
      | throw m s => rw [hd] at hn; simp only [Completion.state] at hn; subst hn; rfl
    | some c0 =>
      have hid := displayResults_state_id parseHTML marked pg.template r c0
      have hc0 := getElementById_id pg cid c0 hg
      cases hd : displayResults parseHTML marked pg.template r (some c0) with
      | normal s =>
        cases s with
        | none => rfl
        | some c =>
          have := hid c (by rw [hd]; rfl)
          exact getElementById_putContainer_other pg cid id _ (by simp [this, hc0]) hne
      | throw m s =>
        cases s with
        | none => rfl
        | some c =>
          have := hid c (by rw [hd]; rfl)
          exact getElementById_putContainer_other pg cid id _ (by simp [this, hc0]) hne

theorem afterCatch_frame (parseHTML : String → List Markup)
    (marked : String → String) (cid : String) (out : FetchOutcome)
    (pg : Page) (id : String) (hne : id ≠ cid) :
    getElementById (afterCatch parseHTML marked cid out pg) id = getElementById pg id := by
  cases out with
  | rejected m => rfl
  | json r =>
    have h := thenHandler_frame parseHTML marked cid r pg id hne
    simp only [afterCatch]
    cases ht : thenHandler parseHTML marked cid r pg with
    | normal s => rw [ht] at h; exact h
    | throw m s => rw [ht] at h; exact h

theorem thenHandler_controls (parseHTML : String → List Markup)
    (marked : String → String) (cid : String) (r : Report) (pg : Page) :
    (thenHandler parseHTML marked cid r pg).state.controls = pg.controls := by
  unfold thenHandler
  split
  · rfl
  · split <;> rfl

theorem afterCatch_controls (parseHTML : String → List Markup)
    (marked : String → String) (cid : String) (out : FetchOutcome)
    (pg : Page) : (afterCatch parseHTML marked cid out pg).controls = pg.controls := by
  cases out with
  | rejected m => rfl
  | json r =>
    have h := thenHandler_controls parseHTML marked cid r pg
    simp only [afterCatch]
    cases ht : thenHandler parseHTML marked cid r pg with
    | normal s => rw [ht] at h; exact h
    | throw m s => rw [ht] at h; exact h

theorem finallyHandler_frame (ref : String) (pg : Page) :
    (finallyHandler ref pg).state.containers = pg.containers
    ∧ (finallyHandler ref pg).state.alerts = pg.alerts
    ∧ (finallyHandler ref pg).state.location = pg.location := by
  unfold finallyHandler
  cases getControl pg ref with
  | none => exact ⟨rfl, rfl, rfl⟩
  | some b =>
    simp only
    cases setVisuals "inline" "none" false b <;> exact ⟨rfl, rfl, rfl⟩

theorem finallyHandler_idle (ref : String) (pg : Page) (b : SubmitBtn) (t l : String)
    (hb : getControl pg ref = some b) (ht : b.btnText = some t) (hl : b.btnLoader = some l) :
    (finallyHandler ref pg).isNormal = true
    ∧ getControl (finallyHandler ref pg).state ref
        = some { b with btnText := some "inline", btnLoader := some "none", disabled := false } := by
  have hr : b.ref = ref := by
    have := (find_ref _ _ _ hb).1
    simpa using this
  subst hr
  have hput := getControl_putControl pg b
    { b with btnText := some "inline", btnLoader := some "none", disabled := false } hb
  simp only [finallyHandler, hb, setVisuals, ht, hl, Completion.isNormal, Completion.state,
    true_and]
  exact hput

theorem begin_spec (pg : Page) (ev : Event) (data : ResearchData) (pg1 : Page) (ref : String)
    (h : runResearchBegin pg ev data = (.normal pg1, some ref)) :
    ∃ b0 b1, resolveSubmitBtn pg ev = some b0 ∧ b0.ref = ref
      ∧ getControl pg1 ref = some b1
      ∧ b1.btnText = some "none" ∧ b1.btnLoader = some "inline-flex"
      ∧ pg1.containers = pg.containers ∧ pg1.alerts = pg.alerts
      ∧ pg1.template = pg.template ∧ pg1.location = pg.location := by
  unfold runResearchBegin at h
  cases hr : resolveSubmitBtn pg ev with
  | none => rw [hr] at h; simp at h
  | some b =>
    rw [hr] at h
    have hget : getControl pg b.ref = some b := by
      unfold resolveSubmitBtn at hr
      split at hr
      · next b' hb' =>
        cases hr
        obtain ⟨x, _, hx⟩ := Option.bind_eq_some.mp hb'
        have := (find_ref _ _ _ hx).1
        have hbx : b.ref = x := by simpa using this
        rw [hbx]; exact hx
      · have := (find_ref _ _ _ hr).1
        have hbx : b.ref = "submitBtn" := by simpa using this
        rw [hbx]; exact hr
    cases ht : b.btnText with
    | none => simp [setVisuals, ht] at h
    | some t =>
      cases hl : b.btnLoader with
      | none => simp [setVisuals, ht, hl] at h
      | some l =>
        simp only [setVisuals, ht, hl, Prod.mk.injEq, Completion.normal.injEq,
          Option.some.injEq] at h
        obtain ⟨h1, h2⟩ := h
        subst h1 h2
        have hput := getControl_putControl pg b
          { b with btnText := some "none", btnLoader := some "inline-flex", disabled := true } hget
        exact ⟨b, _, rfl, rfl, hput, rfl, rfl, rfl, rfl, rfl, rfl⟩

theorem runResearch_of_begin (parseHTML : String → List Markup)
    (marked : String → String) (pg : Page) (ev : Event)
    (data : ResearchData) (cid : String) (out : FetchOutcome) (pg1 : Page) (ref : String)
    (h : runResearchBegin pg ev data = (.normal pg1, some ref)) :
    runResearch parseHTML marked pg ev data cid out = onSettled parseHTML marked ref cid out pg1 := by
  simp only [runResearch, h]

/-- C2 (amended): for every response to a research submission that carries an
error field with a non-empty message X, `runResearch` performs no rendering: the
results containers (content and visibility) are exactly as they were before, and
one alert whose text is "Error: " followed by X is shown. -/
theorem error_response_alert_no_render (parseHTML : String → List Markup)
    (marked : String → String) (pg : Page) (ev : Event)
    (data : ResearchData) (cid : String) (r : Report) (X : String) (pg1 : Page) (ref : String)
    (hb : runResearchBegin pg ev data = (.normal pg1, some ref))
    (he : r.error = .str X) (hX : X ≠ "") :
    (runResearch parseHTML marked pg ev data cid (.json r)).state.containers = pg.containers
    ∧ (runResearch parseHTML marked pg ev data cid (.json r)).state.alerts
        = pg.alerts ++ ["Error: " ++ X] := by
  obtain ⟨_, _, _, _, _, _, _, hcont, halert, _, _⟩ := begin_spec pg ev data pg1 ref hb
  rw [runResearch_of_begin parseHTML marked pg ev data cid _ pg1 ref hb]
  have ht : (JSVal.str X).truthy = true := by simp [JSVal.truthy, hX]
  have ha : afterCatch parseHTML marked cid (.json r) pg1
      = { pg1 with alerts := pg1.alerts ++ ["Error: " ++ X] } := by
    simp only [afterCatch, thenHandler, he, ht, if_true, JSVal.toStr]
  obtain ⟨h1, h2, _⟩ := finallyHandler_frame ref (afterCatch parseHTML marked cid (.json r) pg1)
  rw [onSettled, h1, h2, ha]
  exact ⟨hcont, by simp only [halert]⟩

theorem error_response_alert_no_render_witness :
    (runResearch exParse id exPage ⟨none⟩ (researchFormSubmit exForm).1 "results-new-research"
        (.json { emptyErrorResponse with error := .str "X" })).state.containers
      = exPage.containers
    ∧ (runResearch exParse id exPage ⟨none⟩ (researchFormSubmit exForm).1 "results-new-research"
        (.json { emptyErrorResponse with error := .str "X" })).state.alerts
      = exPage.alerts ++ ["Error: " ++ "X"] :=
  error_response_alert_no_render exParse id exPage ⟨none⟩ (researchFormSubmit exForm).1
    "results-new-research" { emptyErrorResponse with error := .str "X" } "X"
    (runResearchBegin exPage ⟨none⟩ (researchFormSubmit exForm).1).1.state "submitBtn"
    (by decide) rfl (by decide)

/-- C2 (as stated) fails: for the response that carries an error field with the
empty message, `runResearch` starts rendering (the target container gets the
template markup) and the alert shown is not "Error: ". -/
theorem empty_error_message_renders :
    emptyErrorResponse.error = .str ""
    ∧ getElementById
        (runResearch exParse id exPage ⟨none⟩ (researchFormSubmit exForm).1 "results-new-research"
          (.json emptyErrorResponse)).state "results-new-research"
      ≠ getElementById exPage "results-new-research"
    ∧ (runResearch exParse id exPage ⟨none⟩ (researchFormSubmit exForm).1 "results-new-research"
          (.json emptyErrorResponse)).state.alerts
      ≠ exPage.alerts ++ ["Error: " ++ ""] := by
  decide

/-- C6: for every research submission whose request was issued, once the request
has settled (with a rendered response, a response with an error field, a
rejection in transport or parsing, or a throw while rendering) the triggering
submit control is idle: `disabled` is false, its `.btn-text` has the display
"inline" and its `.btn-loader` has the display "none". -/
theorem submit_control_idle_after_settle (parseHTML : String → List Markup)
    (marked : String → String) (pg : Page) (ev : Event)
    (data : ResearchData) (cid : String) (out : FetchOutcome) (pg1 : Page) (ref : String)
    (hb : runResearchBegin pg ev data = (.normal pg1, some ref)) :
    (resolveSubmitBtn pg ev).map (·.ref) = some ref
    ∧ (runResearch parseHTML marked pg ev data cid out).isNormal = true
    ∧ ∃ b, getControl (runResearch parseHTML marked pg ev data cid out).state ref = some b
        ∧ b.disabled = false ∧ b.btnText = some "inline" ∧ b.btnLoader = some "none" := by
  obtain ⟨b0, b1, hres, hr0, hget, ht, hl, _⟩ := begin_spec pg ev data pg1 ref hb
  rw [runResearch_of_begin parseHTML marked pg ev data cid _ pg1 ref hb]
  have hget' : getControl (afterCatch parseHTML marked cid out pg1) ref = some b1 := by
    simp only [getControl, afterCatch_controls]; exact hget
  obtain ⟨h1, h2⟩ :=
    finallyHandler_idle ref (afterCatch parseHTML marked cid out pg1) b1 _ _ hget' ht hl
  refine ⟨by simp [hres, hr0], h1, _, h2, rfl, rfl, rfl⟩

theorem submit_control_idle_after_settle_witness :
    (resolveSubmitBtn exPage ⟨none⟩).map (·.ref) = some "submitBtn"
    ∧ (runResearch exParse id exPage ⟨none⟩ (researchFormSubmit exForm).1 "results-new-research"
        (.rejected "Failed to fetch")).isNormal = true
    ∧ ∃ b, getControl (runResearch exParse id exPage ⟨none⟩ (researchFormSubmit exForm).1
          "results-new-research" (.rejected "Failed to fetch")).state "submitBtn" = some b
        ∧ b.disabled = false ∧ b.btnText = some "inline" ∧ b.btnLoader = some "none" :=
  submit_control_idle_after_settle exParse id exPage ⟨none⟩ (researchFormSubmit exForm).1
    "results-new-research" (.rejected "Failed to fetch")
    (runResearchBegin exPage ⟨none⟩ (researchFormSubmit exForm).1).1.state "submitBtn"
    (by decide)

/-- C9: for every set of field values submitted through the free-form research
form and every successful response, the submission targets the container
`results-new-research`; every other results container (in particular
`results-elizabeth-holmes`, `results-sam-bankman` and `results-martin-shkreli`)
keeps its content and visibility; and when the request was issued and the render
can complete (the container and a complete template exist, the response has its
two mappings), `results-new-research` holds the rendered report and has the
display "block". -/
theorem form_submission_only_new_research (parseHTML : String → List Markup)
    (marked : String → String) (pg : Page) (ev : Event)
    (fd : FormData) (r : Report) (hok : r.error.truthy = false) :
    (researchFormSubmit fd).2 = "results-new-research"
    ∧ (∀ id, id ≠ "results-new-research" →
        getElementById (runResearch parseHTML marked pg ev (researchFormSubmit fd).1
          (researchFormSubmit fd).2 (.json r)).state id = getElementById pg id)
    ∧ (∀ (pg1 : Page) (ref : String) (tpl : List Markup) (rb : RiskBreakdown) (st : Stats)
          (c : Container),
        runResearchBegin pg ev (researchFormSubmit fd).1 = (.normal pg1, some ref) →
        pg.template = some tpl → templateComplete tpl = true →
        r.risk_breakdown = some rb → r.stats = some st →
        getElementById pg "results-new-research" = some c →
        ∃ c', displayResults parseHTML marked (some tpl) r (some c) = .normal (some c')
          ∧ getElementById (runResearch parseHTML marked pg ev (researchFormSubmit fd).1
              (researchFormSubmit fd).2 (.json r)).state "results-new-research"
            = some { c' with display := "block" }) := by
  refine ⟨rfl, ?_, ?_⟩
  · intro id hne
    show getElementById (runResearch parseHTML marked pg ev (researchFormSubmit fd).1
      "results-new-research" (.json r)).state id = _
    cases hbeg : runResearchBegin pg ev (researchFormSubmit fd).1 with
    | mk res oref =>
      have hcases : (∃ pg1 ref, res = .normal pg1 ∧ oref = some ref) ∨
          (runResearch parseHTML marked pg ev (researchFormSubmit fd).1 "results-new-research" (.json r)
            = res ∧ res.state.containers = pg.containers) := by
        unfold runResearch
        rw [hbeg]
        unfold runResearchBegin at hbeg
        cases hr : resolveSubmitBtn pg ev with
        | none =>
          rw [hr] at hbeg
          simp only [Prod.mk.injEq] at hbeg
          obtain ⟨h1, h2⟩ := hbeg
          subst h1 h2
          exact Or.inr ⟨rfl, rfl⟩
        | some b =>
          rw [hr] at hbeg
          simp only at hbeg
          cases hs : setVisuals "none" "inline-flex" true b with
          | normal b' =>
            rw [hs] at hbeg
            simp only [Prod.mk.injEq] at hbeg
            obtain ⟨h1, h2⟩ := hbeg
            exact Or.inl ⟨_, _, h1.symm, h2.symm⟩
          | throw m b' =>
            rw [hs] at hbeg
            simp only [Prod.mk.injEq] at hbeg
            obtain ⟨h1, h2⟩ := hbeg
            subst h1 h2
            exact Or.inr ⟨rfl, rfl⟩
      rcases hcases with ⟨pg1, ref, h1, h2⟩ | ⟨h1, h2⟩
      · subst h1 h2
        obtain ⟨_, _, _, _, _, _, _, hcont, _⟩ :=
          begin_spec pg ev (researchFormSubmit fd).1 pg1 ref hbeg
        rw [runResearch_of_begin parseHTML marked pg ev _ _ _ pg1 ref hbeg]
        have hf := (finallyHandler_frame ref
          (afterCatch parseHTML marked "results-new-research" (.json r) pg1)).1
        have ha := afterCatch_frame parseHTML marked "results-new-research" (.json r) pg1 id hne
        simp only [getElementById, onSettled, hf] at ha ⊢
        rw [ha, hcont]
      · rw [h1]
        simp only [getElementById, h2]
  · intro pg1 ref tpl rb st c hbeg htpl hc hrb hst hg
    obtain ⟨els', hp⟩ := populate_ok parseHTML marked r rb st hrb hst tpl hc
    have hd := displayResults_normal parseHTML marked tpl r c els' hp
    refine ⟨_, hd, ?_⟩
    obtain ⟨_, _, _, _, _, _, _, hcont, _, htemp, _⟩ :=
      begin_spec pg ev (researchFormSubmit fd).1 pg1 ref hbeg
    show getElementById (runResearch parseHTML marked pg ev (researchFormSubmit fd).1
      "results-new-research" (.json r)).state "results-new-research" = _
    rw [runResearch_of_begin parseHTML marked pg ev _ _ _ pg1 ref hbeg]
    have hg1 : getElementById pg1 "results-new-research" = some c := by
      simp only [getElementById, hcont]; exact hg
    have hcid := getElementById_id pg "results-new-research" c hg
    have ha : afterCatch parseHTML marked "results-new-research" (.json r) pg1
        = putContainer pg1 "results-new-research"
            { id := c.id, content := els', display := "block" } := by
      simp only [afterCatch, thenHandler, hok, Bool.false_eq_true, if_false, htemp, htpl, hg1, hd]
    have hf := (finallyHandler_frame ref
      (afterCatch parseHTML marked "results-new-research" (.json r) pg1)).1
    have hsame := getElementById_putContainer_same pg1 "results-new-research" c
      { id := c.id, content := els', display := "block" } hg1 hcid
    rw [ha] at hf
    simp only [getElementById] at hsame
    simp only [getElementById, onSettled, ha, hf]
    exact hsame

theorem form_submission_only_new_research_witness :
    exReport.error.truthy = false
    ∧ getElementById (runResearch exParse id exPage ⟨none⟩ (researchFormSubmit exForm).1
        (researchFormSubmit exForm).2 (.json exReport)).state "results-martin-shkreli"
      = getElementById exPage "results-martin-shkreli"
    ∧ ∃ c', displayResults exParse id (some exTemplate) exReport
          (some (exContainer "results-new-research")) = .normal (some c')
        ∧ getElementById (runResearch exParse id exPage ⟨none⟩ (researchFormSubmit exForm).1
            (researchFormSubmit exForm).2 (.json exReport)).state "results-new-research"
          = some { c' with display := "block" } :=
  ⟨by decide,
   (form_submission_only_new_research exParse id exPage ⟨none⟩ exForm exReport (by decide)).2.1
     "results-martin-shkreli" (by decide),
   (form_submission_only_new_research exParse id exPage ⟨none⟩ exForm exReport (by decide)).2.2
     (runResearchBegin exPage ⟨none⟩ (researchFormSubmit exForm).1).1.state "submitBtn"
     exTemplate _ _ (exContainer "results-new-research")
     (by decide) rfl (by decide) rfl rfl (by decide)⟩

/-! ## Theorems: the tab handler -/

theorem modifyAt_getElem? {α : Type} (f : α → α) (n k : Nat) (l : List α) :
    (modifyAt f n l)[k]? = if k = n then l[k]?.map f else l[k]? := by
  induction l generalizing n k with
  | nil => cases n <;> simp [modifyAt]
  | cons a as ih =>
    cases n with
    | zero =>
      cases k with
      | zero => simp [modifyAt]
      | succ k => simp [modifyAt]
    | succ n =>
      cases k with
      | zero => simp [modifyAt]
      | succ k => simp [modifyAt, ih]

theorem modifyAt_map {α β : Type} (g : α → β) (f : α → α) (hg : ∀ a, g (f a) = g a)
    (n : Nat) (l : List α) : (modifyAt f n l).map g = l.map g := by
  induction l generalizing n with
  | nil => cases n <;> rfl
  | cons a as ih =>
    cases n with
    | zero => simp [modifyAt, hg]
    | succ n => simp [modifyAt, ih]

theorem firstIdx_congr {α β : Type} (g : α → β) (q : β → Bool) (l l' : List α)
    (h : l.map g = l'.map g) :
    firstIdx (fun a => q (g a)) l = firstIdx (fun a => q (g a)) l' := by
  induction l generalizing l' with
  | nil =>
    cases l' with
    | nil => rfl
    | cons b bs => simp at h
  | cons a as ih =>
    cases l' with
    | nil => simp at h
    | cons b bs =>
      simp only [List.map_cons, List.cons.injEq] at h
      simp only [firstIdx, h.1, ih bs h.2]

theorem firstIdx_some {α : Type} (p : α → Bool) (l : List α) (j : Nat)
    (h : firstIdx p l = some j) : ∃ a, l[j]? = some a ∧ p a = true := by
  induction l generalizing j with
  | nil => cases h
  | cons a as ih =>
    by_cases ha : p a = true
    · simp only [firstIdx, ha, if_true, Option.some.injEq] at h
      subst h
      exact ⟨a, by simp, ha⟩
    · simp only [firstIdx, ha, Bool.false_eq_true, if_false, Option.map_eq_some'] at h
      obtain ⟨j', hj', rfl⟩ := h
      obtain ⟨x, hx, hpx⟩ := ih j' hj'
      exact ⟨x, by simpa using hx, hpx⟩

theorem hasClass_removeActive (c : String) (e : TabElem) :
    (removeActive e).hasClass c = (e.hasClass c && c != "active") := by
  rw [Bool.eq_iff_iff]
  simp [TabElem.hasClass, removeActive, List.mem_filter]

theorem hasClass_addActive (c : String) (e : TabElem) :
    (addActive e).hasClass c = (e.hasClass c || c == "active") := by
  rw [Bool.eq_iff_iff]
  unfold addActive
  split
  · next h =>
    simp only [TabElem.hasClass, List.contains_eq_any_beq, List.any_eq_true, beq_iff_eq,
      Bool.or_eq_true] at h ⊢
    constructor
    · exact Or.inl
    · rintro (h' | rfl)
      · exact h'
      · exact h
  · simp [TabElem.hasClass]

theorem removeActive_id (e : TabElem) : (removeActive e).id = e.id := rfl

theorem addActive_id (e : TabElem) : (addActive e).id = e.id := by
  unfold addActive
  split <;> rfl

theorem deactivate_id (cls : String) (e : TabElem) : (deactivate cls e).id = e.id := by
  unfold deactivate
  split <;> rfl

theorem hasClass_deactivate (cls c : String) (e : TabElem) :
    (deactivate cls e).hasClass c = (e.hasClass c && (c != "active" || !e.hasClass cls)) := by
  unfold deactivate
  split
  · next h => simp [hasClass_removeActive, h]
  · next h => simp [h]

theorem tabClick_normal (i : Nat) (doc : List TabElem) (b : TabElem) (t : String) (j : Nat)
    (hi : doc[i]? = some b) (ht : b.dataTarget = some t)
    (hj : tabGetElementById t doc = some j) :
    tabClick i doc = .normal (modifyAt addActive j (modifyAt addActive i
      ((doc.map (deactivate "tab-btn")).map (deactivate "tab-content")))) := by
  have hid : (modifyAt addActive i
      ((doc.map (deactivate "tab-btn")).map (deactivate "tab-content"))).map (fun e => e.id)
      = doc.map (fun e => e.id) := by
    rw [modifyAt_map (fun e : TabElem => e.id) addActive addActive_id, List.map_map,
      List.map_map]
    apply List.map_congr_left
    intro a _
    simp only [Function.comp, deactivate_id]
  have hj' := firstIdx_congr (fun e : TabElem => e.id) (fun x => t != "" && x == some t) _ _ hid
  simp only [tabClick, hi, ht, Option.getD_some, tabGetElementById]
  simp only [tabGetElementById] at hj
  rw [hj', hj]

/-- C8: for every page state and every click on a tab button (an element of
class `tab-btn`, not itself a pane) whose `data-target` names an existing content
pane (`getElementById` returns an element of class `tab-content`, not itself a
tab button), the handler completes, and afterwards exactly one `.tab-btn` element
has the class `active`, the clicked button, and exactly one `.tab-content`
element has the class `active`, the pane whose id equals the `data-target`. -/
theorem tab_click_exactly_one_active (doc : List TabElem) (i j : Nat) (b p : TabElem)
    (t : String)
    (hi : doc[i]? = some b) (hbtn : b.hasClass "tab-btn" = true)
    (hbnp : b.hasClass "tab-content" = false)
    (ht : b.dataTarget = some t)
    (hj : tabGetElementById t doc = some j) (hp : doc[j]? = some p)
    (hpane : p.hasClass "tab-content" = true) (hpnb : p.hasClass "tab-btn" = false) :
    ∃ doc', tabClick i doc = .normal doc'
      ∧ doc'.length = doc.length
      ∧ (doc'[j]?).map (·.id) = some (some t)
      ∧ ∀ k e, doc'[k]? = some e →
          ((activeOf "tab-btn" e = true ↔ k = i)
           ∧ (activeOf "tab-content" e = true ↔ k = j)) := by
  have hne : i ≠ j := by
    intro h
    subst h
    rw [hi] at hp
    cases hp
    rw [hbtn] at hpnb
    exact Bool.noConfusion hpnb
  have h1 : ("tab-content" == "active") = false := by decide
  have h2 : ("tab-btn" == "active") = false := by decide
  have h3 : ("tab-content" != "active") = true := by decide
  have h4 : ("tab-btn" != "active") = true := by decide
  have h5 : ("active" != "active") = false := by decide
  have hlen : ∀ (n : Nat) (l : List TabElem), (modifyAt addActive n l).length = l.length := by
    intro n l
    have := congrArg List.length (modifyAt_map (fun _ : TabElem => ()) addActive (fun _ => rfl) n l)
    simpa using this
  refine ⟨_, tabClick_normal i doc b t j hi ht hj, ?_, ?_, ?_⟩
  · rw [hlen, hlen, List.length_map, List.length_map]
  · obtain ⟨a, ha, hpa⟩ := firstIdx_some _ doc j hj
    rw [hp] at ha
    cases ha
    have hidp : p.id = some t := by
      simp only [Bool.and_eq_true, beq_iff_eq] at hpa
      exact hpa.2
    simp only [modifyAt_getElem?, List.getElem?_map, hp, if_true, if_neg (Ne.symm hne),
      Option.map_some', addActive_id, deactivate_id, hidp]
  · intro k e hk
    simp only [modifyAt_getElem?, List.getElem?_map] at hk
    by_cases hki : k = i
    · subst hki
      simp only [if_neg hne, if_true, hi, Option.map_some', Option.some.injEq] at hk
      subst hk
      simp [activeOf, hasClass_addActive, hasClass_deactivate, hbtn, hbnp, h2, h1, h3, h4, hne]
    · by_cases hkj : k = j
      · subst hkj
        simp only [if_true, if_neg hki, hp, Option.map_some', Option.some.injEq] at hk
        subst hk
        simp [activeOf, hasClass_addActive, hasClass_deactivate, hpane, hpnb, h2, h1, h3, h4, hki]
      · simp only [if_neg hki, if_neg hkj] at hk
        cases hd : doc[k]? with
        | none => rw [hd] at hk; simp at hk
        | some e0 =>
          rw [hd] at hk
          simp only [Option.map_some', Option.some.injEq] at hk
          subst hk
          simp only [activeOf, hasClass_deactivate, h3, h4, h5, Bool.true_or, Bool.and_true,
            Bool.false_or]
          cases e0.hasClass "tab-btn" <;> cases e0.hasClass "tab-content" <;>
            cases e0.hasClass "active" <;> simp [hki, hkj]

theorem tab_click_exactly_one_active_witness :
    ∃ doc', tabClick 1 exTabs = .normal doc'
      ∧ doc'.length = exTabs.length
      ∧ (doc'[3]?).map (·.id) = some (some "new-research")
      ∧ ∀ k e, doc'[k]? = some e →
          ((activeOf "tab-btn" e = true ↔ k = 1)
           ∧ (activeOf "tab-content" e = true ↔ k = 3)) :=
  tab_click_exactly_one_active exTabs 1 3
    { id := none, classes := ["tab-btn"], dataTarget := some "new-research" }
    { id := some "new-research", classes := ["tab-content"], dataTarget := none }
    "new-research" rfl (by decide) (by decide) rfl (by decide) rfl (by decide) (by decide)

end ResearchUI
